import Mathlib

/-!
Verification of the partial-update engine of the ik-hxr-cms-backend
CRUD lambda handlers (organizations, users, devices, content, schedules).

The Python helpers are shallowly embedded: DynamoDB items are association
lists from field name to a value, a table is a list of items, and each
helper becomes a pure Lean function.  Library calls that the helpers make
(json.loads, Decimal, hashlib.sha256, boto3) are modelled as follows:
json.loads and Decimal(str(.)) are passed in as function parameters (an
Option result models a raised exception), sha256 is implemented concretely,
and each boto3 round trip takes a Boolean availability flag whose false
value models an infrastructure exception raised by the store call.
-/

set_option autoImplicit false
set_option maxRecDepth 4096

namespace CMS

/-- Field values as the repository data model uses them (spec section 3:
string, number, boolean, or ordered sequence of reference-id strings),
plus null for JSON null / Python None stored in an item. -/
inductive Value where
  | vStr (s : String)
  | vNum (n : Int)
  | vBool (b : Bool)
  | vNull
  | vArr (xs : List String)
deriving DecidableEq, Repr

/-- Truth of Python bool(v) for the values in scope: None, False, 0, the
empty string and the empty list are falsy, everything else truthy. -/
def Value.isTruthy : Value → Bool
  | .vStr s => !s.isEmpty
  | .vNum n => n != 0
  | .vBool b => b
  | .vNull => false
  | .vArr xs => !xs.isEmpty

/-- Whether a value is a native ordered sequence (a Python list). -/
def Value.isArr : Value → Bool
  | .vArr _ => true
  | _ => false

/-- Whether a value is a string (Python isinstance(v, str)). -/
def Value.isStr : Value → Bool
  | .vStr _ => true
  | _ => false

/-- A Python dict with string keys in insertion order (DynamoDB item,
request body, update set). -/
abbrev Dict := List (String × Value)

/-- Python d.get(k): the value stored at the first (and in a real dict the
only) occurrence of the key. -/
def dget (d : Dict) (k : String) : Option Value :=
  match d with
  | [] => none
  | (k0, v0) :: rest => if k0 = k then some v0 else dget rest k

/-- Python k in d. -/
def hasKey (d : Dict) (k : String) : Bool :=
  match d with
  | [] => false
  | (k0, _) :: rest => k0 = k || hasKey rest k

/-- Python d.get(k, default). -/
def dgetD (d : Dict) (k : String) (v : Value) : Value :=
  (dget d k).getD v

/-- Python d[k] = v: overwrite in place if the key is present (keeping its
position), otherwise append. -/
def dinsert (d : Dict) (k : String) (v : Value) : Dict :=
  match d with
  | [] => [(k, v)]
  | (k0, v0) :: rest =>
      if k0 = k then (k0, v) :: rest else (k0, v0) :: dinsert rest k v

/-- Python d.pop(k, None): remove the key if present. -/
def dremove (d : Dict) (k : String) : Dict :=
  match d with
  | [] => []
  | (k0, v0) :: rest =>
      if k0 = k then rest else (k0, v0) :: dremove rest k

/-- The keys of a dict, in order. -/
def dkeys (d : Dict) : List String :=
  match d with
  | [] => []
  | (k0, _) :: rest => k0 :: dkeys rest

@[simp] theorem dget_nil (k : String) : dget [] k = none := rfl

@[simp] theorem dget_cons (k0 : String) (v0 : Value) (rest : Dict) (k : String) :
    dget ((k0, v0) :: rest) k = if k0 = k then some v0 else dget rest k := rfl

@[simp] theorem hasKey_nil (k : String) : hasKey [] k = false := rfl

@[simp] theorem hasKey_cons (k0 : String) (v0 : Value) (rest : Dict) (k : String) :
    hasKey ((k0, v0) :: rest) k = (decide (k0 = k) || hasKey rest k) := rfl

@[simp] theorem dkeys_nil : dkeys [] = [] := rfl

@[simp] theorem dkeys_cons (k0 : String) (v0 : Value) (rest : Dict) :
    dkeys ((k0, v0) :: rest) = k0 :: dkeys rest := rfl

theorem hasKey_iff_dget_isSome (d : Dict) (k : String) :
    hasKey d k = true ↔ (dget d k).isSome := by
  induction d with
  | nil => simp
  | cons p rest ih =>
      obtain ⟨k0, v0⟩ := p
      by_cases h : k0 = k <;> simp [h, ih]

theorem hasKey_iff_mem_dkeys (d : Dict) (k : String) :
    hasKey d k = true ↔ k ∈ dkeys d := by
  induction d with
  | nil => simp
  | cons p rest ih =>
      obtain ⟨k0, v0⟩ := p
      simp only [hasKey_cons, Bool.or_eq_true, decide_eq_true_eq, dkeys_cons,
        List.mem_cons, ih]
      constructor
      · rintro (h | h)
        · exact Or.inl h.symm
        · exact Or.inr h
      · rintro (h | h)
        · exact Or.inl h.symm
        · exact Or.inr h

theorem dget_append_left (d e : Dict) (k : String) (h : hasKey d k = true) :
    dget (d ++ e) k = dget d k := by
  induction d with
  | nil => simp at h
  | cons p rest ih =>
      obtain ⟨k0, v0⟩ := p
      rw [List.cons_append]
      by_cases hk : k0 = k
      · simp [hk]
      · simp only [hasKey_cons, Bool.or_eq_true, decide_eq_true_eq] at h
        rcases h with h | h
        · exact absurd h hk
        · simp [hk, ih h]

theorem dget_append_right (d e : Dict) (k : String) (h : hasKey d k = false) :
    dget (d ++ e) k = dget e k := by
  induction d with
  | nil => simp
  | cons p rest ih =>
      obtain ⟨k0, v0⟩ := p
      simp only [hasKey_cons, Bool.or_eq_false_iff, decide_eq_false_iff_not] at h
      rw [List.cons_append]
      simp [h.1, ih h.2]

@[simp] theorem dget_dinsert_self (d : Dict) (k : String) (v : Value) :
    dget (dinsert d k v) k = some v := by
  induction d with
  | nil => simp [dinsert]
  | cons p rest ih =>
      obtain ⟨k0, v0⟩ := p
      by_cases h : k0 = k <;> simp [dinsert, h, ih]

theorem dget_dinsert_ne (d : Dict) (k j : String) (v : Value) (h : k ≠ j) :
    dget (dinsert d k v) j = dget d j := by
  induction d with
  | nil => simp [dinsert, h]
  | cons p rest ih =>
      obtain ⟨k0, v0⟩ := p
      by_cases h0 : k0 = k
      · subst h0
        simp [dinsert, h]
      · simp only [dinsert, if_neg h0, dget_cons]
        by_cases h1 : k0 = j <;> simp [h1, ih]

theorem dget_dremove_ne (d : Dict) (k j : String) (h : k ≠ j) :
    dget (dremove d k) j = dget d j := by
  induction d with
  | nil => simp [dremove]
  | cons p rest ih =>
      obtain ⟨k0, v0⟩ := p
      by_cases h0 : k0 = k
      · subst h0
        simp [dremove, (by simpa using h : ¬ (k0 = j))]
      · simp only [dremove, if_neg h0, dget_cons]
        by_cases h1 : k0 = j <;> simp [h1, ih]

/-! SHA-256, embedding hashlib.sha256(password.encode()).hexdigest() from
src/lambda/user/utils/helpers.py (hash_password).  Words are Nat reduced
mod 2^32. -/

def w32 : Nat := 4294967296

def wadd (a b : Nat) : Nat := (a + b) % w32

/-- Right rotation of a 32-bit word, written arithmetically: the low n
bits wrap around to the top. -/
def rotr (n x : Nat) : Nat := (x / 2 ^ n + x % 2 ^ n * 2 ^ (32 - n)) % w32

def bigS0 (x : Nat) : Nat := rotr 2 x ^^^ rotr 13 x ^^^ rotr 22 x

def bigS1 (x : Nat) : Nat := rotr 6 x ^^^ rotr 11 x ^^^ rotr 25 x

def smallS0 (x : Nat) : Nat := rotr 7 x ^^^ rotr 18 x ^^^ (x >>> 3)

def smallS1 (x : Nat) : Nat := rotr 17 x ^^^ rotr 19 x ^^^ (x >>> 10)

def chB (x y z : Nat) : Nat := (x &&& y) ^^^ ((x ^^^ (w32 - 1)) &&& z)

def majB (x y z : Nat) : Nat := (x &&& y) ^^^ (x &&& z) ^^^ (y &&& z)

def K256 : List Nat :=
  [1116352408, 1899447441, 3049323471, 3921009573, 961987163, 1508970993,
   2453635748, 2870763221, 3624381080, 310598401, 607225278, 1426881987,
   1925078388, 2162078206, 2614888103, 3248222580, 3835390401, 4022224774,
   264347078, 604807628, 770255983, 1249150122, 1555081692, 1996064986,
   2554220882, 2821834349, 2952996808, 3210313671, 3336571891, 3584528711,
   113926993, 338241895, 666307205, 773529912, 1294757372, 1396182291,
   1695183700, 1986661051, 2177026350, 2456956037, 2730485921, 2820302411,
   3259730800, 3345764771, 3516065817, 3600352804, 4094571909, 275423344,
   430227734, 506948616, 659060556, 883997877, 958139571, 1322822218,
   1537002063, 1747873779, 1955562222, 2024104815, 2227730452, 2361852424,
   2428436474, 2756734187, 3204031479, 3329325298]

/-- The eight working registers of the compression function. -/
structure Hash8 where
  ha : Nat
  hb : Nat
  hc : Nat
  hd : Nat
  he : Nat
  hf : Nat
  hg : Nat
  hh : Nat
deriving DecidableEq, Repr

def initH : Hash8 :=
  ⟨1779033703, 3144134277, 1013904242, 2773480762,
   1359893119, 2600822924, 528734635, 1541459225⟩

/-- Big-endian 32-bit words from a byte list. -/
def toWords : List Nat → List Nat
  | b0 :: b1 :: b2 :: b3 :: rest =>
      (((b0 * 256 + b1) * 256 + b2) * 256 + b3) :: toWords rest
  | _ => []

/-- Extend the 16-word message schedule by the given number of words. -/
def extendSchedule : List Nat → Nat → List Nat
  | w, 0 => w
  | w, fuel + 1 =>
      let n := w.length
      let v := wadd (wadd (smallS1 (w.getD (n - 2) 0)) (w.getD (n - 7) 0))
        (wadd (smallS0 (w.getD (n - 15) 0)) (w.getD (n - 16) 0))
      extendSchedule (w ++ [v]) fuel

def shaRound (s : Hash8) (kw : Nat × Nat) : Hash8 :=
  let t1 := wadd (wadd (wadd s.hh (bigS1 s.he)) (wadd (chB s.he s.hf s.hg) kw.1)) kw.2
  let t2 := wadd (bigS0 s.ha) (majB s.ha s.hb s.hc)
  ⟨wadd t1 t2, s.ha, s.hb, s.hc, wadd s.hd t1, s.he, s.hf, s.hg⟩

def processChunk (h : Hash8) (chunk : List Nat) : Hash8 :=
  let w := extendSchedule (toWords chunk) 48
  let s := (K256.zip w).foldl shaRound h
  ⟨wadd h.ha s.ha, wadd h.hb s.hb, wadd h.hc s.hc, wadd h.hd s.hd,
   wadd h.he s.he, wadd h.hf s.hf, wadd h.hg s.hg, wadd h.hh s.hh⟩

def lenBytes64 (n : Nat) : List Nat :=
  [(n >>> 56) % 256, (n >>> 48) % 256, (n >>> 40) % 256, (n >>> 32) % 256,
   (n >>> 24) % 256, (n >>> 16) % 256, (n >>> 8) % 256, n % 256]

def padMessage (msg : List Nat) : List Nat :=
  let len := msg.length
  let zeros := (119 - len % 64) % 64
  msg ++ [128] ++ List.replicate zeros 0 ++ lenBytes64 (8 * len)

def chunksOf64Aux : Nat → List Nat → List (List Nat)
  | 0, _ => []
  | _, [] => []
  | fuel + 1, l => l.take 64 :: chunksOf64Aux fuel (l.drop 64)

def chunksOf64 (l : List Nat) : List (List Nat) := chunksOf64Aux l.length l

def wordBytes (x : Nat) : List Nat :=
  [(x >>> 24) % 256, (x >>> 16) % 256, (x >>> 8) % 256, x % 256]

def sha256Bytes (msg : List Nat) : List Nat :=
  let hf := (chunksOf64 (padMessage msg)).foldl processChunk initH
  wordBytes hf.ha ++ wordBytes hf.hb ++ wordBytes hf.hc ++ wordBytes hf.hd ++
  wordBytes hf.he ++ wordBytes hf.hf ++ wordBytes hf.hg ++ wordBytes hf.hh

/-- Lowercase hex digit: 0-9 then a-f, by character code. -/
def hexDigit (n : Nat) : Char :=
  if n < 10 then Char.ofNat (48 + n) else Char.ofNat (87 + n)

def bytesToHex : List Nat → List Char
  | [] => []
  | b :: rest => hexDigit (b / 16) :: hexDigit (b % 16) :: bytesToHex rest

def sha256hex (msg : List Nat) : String := String.mk (bytesToHex (sha256Bytes msg))

/-- UTF-8 encoding of one character (Python str.encode()). -/
def utf8Bytes (c : Char) : List Nat :=
  let n := c.toNat
  if n < 128 then [n]
  else if n < 2048 then [192 + n / 64, 128 + n % 64]
  else if n < 65536 then [224 + n / 4096, 128 + (n / 64) % 64, 128 + n % 64]
  else [240 + n / 262144, 128 + (n / 4096) % 64, 128 + (n / 64) % 64, 128 + n % 64]

def strBytes (s : String) : List Nat := (s.toList.map utf8Bytes).flatten

/-- hash_password from src/lambda/user/utils/helpers.py:
sha256 hex digest of the UTF-8 encoded password. -/
def hash_password (password : String) : String := sha256hex (strBytes password)

example : hash_password "abc" =
    "ba7816bf8f01cfea414140de5dae2223b00361a396177a9cb410ff61f20015ad" := by decide

/-! The store.  A DynamoDB table is a list of items; boto3 calls are a
single round trip whose infrastructure failures are modelled by a Boolean
availability flag at the call site of each helper. -/

/-- Error response dict built throughout the helpers:
statusCode plus the JSON body error message. -/
structure ErrResp where
  statusCode : Nat
  error : String
deriving DecidableEq, Repr

/-- table.scan(FilterExpression on one field equalling one value). -/
def scanEq (table : List Dict) (f : String) (v : Value) : List Dict :=
  table.filter (fun r => decide (dget r f = some v))

/-- Whether an item with the given partition key id exists. -/
def existsId (table : List Dict) (i : String) : Bool :=
  table.any (fun r => decide (dget r "id" = some (Value.vStr i)))

/-- table.put_item(Item, ConditionExpression attribute_not_exists(id)):
none models ConditionalCheckFailedException. -/
def putItemIfAbsent (table : List Dict) (item : Dict) : Option (List Dict) :=
  if table.any (fun r => decide (dget r "id" = dget item "id")) then none
  else some (table ++ [item])

/-- Apply a SET field list to one item, in order. -/
def applyUpdates (r : Dict) (upd : Dict) : Dict :=
  match upd with
  | [] => r
  | (k, v) :: rest => applyUpdates (dinsert r k v) rest

/-- table.update_item(Key id, SET upd, ConditionExpression
attribute_exists(id)): none models ConditionalCheckFailedException. -/
def updateItemIfExists (table : List Dict) (i : String) (upd : Dict) :
    Option (List Dict) :=
  if existsId table i then
    some (table.map (fun r =>
      if dget r "id" = some (Value.vStr i) then applyUpdates r upd else r))
  else none

/-! Shared request-validation helpers.  The per-resource
REQUIRED_*_FIELDS constant (a list of (display name, column_name) pairs)
is passed as a parameter; the loop body is identical in every module. -/

/-- Python truthiness of body.get(col): absent gives None which is falsy. -/
def isFalsyOpt : Option Value → Bool
  | none => true
  | some v => !v.isTruthy

/-- validate_required_fields from the device/organization/user/content
helpers: reject (400) on the first required field whose value is falsy
or absent. -/
def validate_required_fields (requiredFields : List (String × String))
    (body : Dict) : Option ErrResp :=
  match requiredFields with
  | [] => none
  | (nm, col) :: rest =>
      if isFalsyOpt (dget body col) then some ⟨400, nm ++ " is required"⟩
      else validate_required_fields rest body

/-! Array-field normalization.  json.loads is passed in as the parameter
loads; a none result models json.JSONDecodeError. -/

/-- The per-field body of the parse_array_fields loop: strings are parsed
as JSON (decode failure degrades to an empty list), absent and null give
an empty list, anything else passes through unchanged. -/
def parseArrayValue (loads : String → Option Value) : Option Value → Value
  | some (Value.vStr s) =>
      match loads s with
      | some v => v
      | none => Value.vArr []
  | some Value.vNull => Value.vArr []
  | none => Value.vArr []
  | some v => v

/-- parse_array_fields from the device/content/schedule helpers: one
output entry per declared array field, in declaration order. -/
def parse_array_fields (loads : String → Option Value) (arrayFields : List String)
    (body : Dict) : Dict :=
  arrayFields.map (fun f => (f, parseArrayValue loads (dget body f)))

def DEVICE_ARRAY_FIELDS : List String := ["playlists", "applications", "contents"]

def CONTENT_ARRAY_FIELDS : List String := ["assigned_to", "playlists"]

def SCHEDULE_ARRAY_FIELDS : List String := ["assigned_to", "contents", "playlists"]

/-- The shared allow-list filtering loop of prepare_update_data: copy the
allowed fields that are present in the body, in allow-list order. -/
def filterAllowed (allowed : List String) (body : Dict) : Dict :=
  match allowed with
  | [] => []
  | f :: rest =>
      match dget body f with
      | some v => (f, v) :: filterAllowed rest body
      | none => filterAllowed rest body

/-! Organization helpers (src/lambda/organization/utils/helpers.py). -/

/-- create_organization_data: fresh id, both timestamps now; none models
the KeyError raised when name or license is absent. -/
def create_organization_data (oid now : String) (body : Dict) : Option Dict :=
  match dget body "name", dget body "license" with
  | some nm, some lic =>
      some [("id", Value.vStr oid), ("name", nm), ("license", lic),
            ("created_at", Value.vStr now), ("updated_at", Value.vStr now),
            ("created_by", dgetD body "created_by" (Value.vStr "")),
            ("updated_by", dgetD body "updated_by" (Value.vStr ""))]
  | _, _ => none

/-- save_organization_to_db: duplicate-license scan gives 409; every
exception (the failed attribute_not_exists(id) guard, a missing license
key, or an unavailable store) is caught by the blanket except and
mapped to 500. -/
def save_organization_to_db (avail : Bool) (organization_data : Dict)
    (table : List Dict) : Option ErrResp × List Dict :=
  if avail then
    match dget organization_data "license" with
    | some lic =>
        if (scanEq table "license" lic).isEmpty then
          match putItemIfAbsent table organization_data with
          | some t => (none, t)
          | none => (some ⟨500, "Internal server error"⟩, table)
        else (some ⟨409, "Organization with this license already exists"⟩, table)
    | none => (some ⟨500, "Internal server error"⟩, table)
  else (some ⟨500, "Internal server error"⟩, table)

/-- The update_item step of update_organization_in_db.  An empty SET list
or a duplicate updated_at / key-attribute id assignment makes DynamoDB
raise a ValidationException, which the blanket except maps to 500; a
failed attribute_exists(id) guard maps to 404. -/
def org_update_write (now oid : String) (update_data : Dict)
    (table : List Dict) : Option ErrResp × List Dict :=
  if update_data.isEmpty then (some ⟨500, "Internal server error"⟩, table)
  else if hasKey update_data "updated_at" || hasKey update_data "id" then
    (some ⟨500, "Internal server error"⟩, table)
  else
    match updateItemIfExists table oid
        (update_data ++ [("updated_at", Value.vStr now)]) with
    | some t => (none, t)
    | none => (some ⟨404, "Organization not found"⟩, table)

/-- update_organization_in_db: when license is being updated, scan for a
different organization holding it (409); then one conditional update. -/
def update_organization_in_db (avail : Bool) (now organization_id : String)
    (update_data : Dict) (table : List Dict) : Option ErrResp × List Dict :=
  if avail then
    match dget update_data "license" with
    | some lic =>
        if (scanEq table "license" lic).any
            (fun item => decide (dget item "id" ≠ some (Value.vStr organization_id))) then
          (some ⟨409, "Organization with this license already exists"⟩, table)
        else org_update_write now organization_id update_data table
    | none => org_update_write now organization_id update_data table
  else (some ⟨500, "Internal server error"⟩, table)

def ORG_UPDATE_ALLOWED_FIELDS : List String := ["name", "license", "updated_by"]

/-- prepare_update_data (organization): copy the allow-listed fields
present in the body. -/
def prepare_update_data_org (body : Dict) : Dict :=
  filterAllowed ORG_UPDATE_ALLOWED_FIELDS body

/-! User helpers (src/lambda/user/utils/helpers.py). -/

/-- create_user_data: fresh id, both timestamps now, email lowercased,
password stored as its sha256 hex digest.  none models the exception
raised when a required key is absent or email / password is not a
string (.lower() / .encode() fail). -/
def create_user_data (uid now : String) (body : Dict) : Option Dict :=
  match dget body "first_name", dget body "last_name", dget body "email",
      dget body "role", dget body "password", dget body "organization_id" with
  | some fn, some ln, some (Value.vStr em), some role, some (Value.vStr pw),
    some org =>
      some [("id", Value.vStr uid), ("first_name", fn), ("last_name", ln),
            ("email", Value.vStr em.toLower), ("role", role),
            ("password", Value.vStr (hash_password pw)),
            ("organization_id", org),
            ("created_at", Value.vStr now), ("updated_at", Value.vStr now),
            ("created_by", dgetD body "created_by" (Value.vStr "")),
            ("updated_by", dgetD body "updated_by" (Value.vStr ""))]
  | _, _, _, _, _, _ => none

/-- save_user_to_db: duplicate-email scan gives 409; every exception
(failed id guard, missing email key, unavailable store) is mapped
to 500 by the blanket except. -/
def save_user_to_db (avail : Bool) (user_data : Dict) (table : List Dict) :
    Option ErrResp × List Dict :=
  if avail then
    match dget user_data "email" with
    | some em =>
        if (scanEq table "email" em).isEmpty then
          match putItemIfAbsent table user_data with
          | some t => (none, t)
          | none => (some ⟨500, "Internal server error"⟩, table)
        else (some ⟨409, "User with this email already exists"⟩, table)
    | none => (some ⟨500, "Internal server error"⟩, table)
  else (some ⟨500, "Internal server error"⟩, table)

/-- Lowercasing of the email value inside the update expression builder
of update_user_in_db. -/
def lowerEmailField (upd : Dict) : Dict :=
  upd.map (fun kv =>
    if kv.1 = "email" then
      (kv.1, match kv.2 with
             | Value.vStr s => Value.vStr s.toLower
             | v => v)
    else kv)

/-- The update_item step of update_user_in_db (as for organizations,
ValidationExceptions map to 500 and the failed existence guard to 404). -/
def user_update_write (now uid : String) (update_data : Dict)
    (table : List Dict) : Option ErrResp × List Dict :=
  if update_data.isEmpty then (some ⟨500, "Internal server error"⟩, table)
  else if hasKey update_data "updated_at" || hasKey update_data "id" then
    (some ⟨500, "Internal server error"⟩, table)
  else
    match updateItemIfExists table uid
        (lowerEmailField update_data ++ [("updated_at", Value.vStr now)]) with
    | some t => (none, t)
    | none => (some ⟨404, "User not found"⟩, table)

/-- update_user_in_db: when email is being updated, query for a different
user holding it, lowercased (the email-index query is modelled as the
equivalent scan); a non-string email raises at .lower() (500). -/
def update_user_in_db (avail : Bool) (now user_id : String)
    (update_data : Dict) (table : List Dict) : Option ErrResp × List Dict :=
  if avail then
    match dget update_data "email" with
    | some v =>
        match v with
        | Value.vStr em =>
            if (scanEq table "email" (Value.vStr em.toLower)).any
                (fun item => decide (dget item "id" ≠ some (Value.vStr user_id))) then
              (some ⟨409, "User with this email already exists"⟩, table)
            else user_update_write now user_id update_data table
        | _ => (some ⟨500, "Internal server error"⟩, table)
    | none => user_update_write now user_id update_data table
  else (some ⟨500, "Internal server error"⟩, table)

def USER_UPDATE_ALLOWED_FIELDS : List String :=
  ["first_name", "last_name", "email", "role", "password", "updated_by"]

/-- The loop of prepare_update_data (user): allow-listed present fields
are copied, the password value being hashed.  none models the exception
raised by hashing a non-string password. -/
def prepUserFields : List String → Dict → Option Dict
  | [], _ => some []
  | f :: rest, body =>
      match dget body f with
      | none => prepUserFields rest body
      | some v =>
          if f = "password" then
            match v with
            | Value.vStr p =>
                (prepUserFields rest body).map
                  (fun upd => (f, Value.vStr (hash_password p)) :: upd)
            | _ => none
          else (prepUserFields rest body).map (fun upd => (f, v) :: upd)

/-- prepare_update_data (user). -/
def prepare_update_data_user (body : Dict) : Option Dict :=
  prepUserFields USER_UPDATE_ALLOWED_FIELDS body

/-- create_success_response (user): 201, the created record minus its
password key. -/
def user_create_success_response (user_data : Dict) : Nat × Dict :=
  (201, dremove user_data "password")

/-- create_user_response: 200, the record minus its password key. -/
def create_user_response (user : Dict) : Nat × Dict :=
  (200, dremove user "password")

/-- create_users_list_response: 200, every record minus its password key. -/
def create_users_list_response (users : List Dict) : Nat × List Dict :=
  (200, users.map (fun u => dremove u "password"))

/-! Device helpers (src/lambda/device/utils/helpers.py). -/

/-- save_device_to_db: a single guarded put whose blanket except maps
every exception — the failed attribute_not_exists(id) guard as well as an
unavailable store — to the same 409 response. -/
def save_device_to_db (avail : Bool) (device_data : Dict)
    (table : List Dict) : Option ErrResp × List Dict :=
  if avail then
    match putItemIfAbsent table device_data with
    | some t => (none, t)
    | none => (some ⟨409, "Device with this ID already exists"⟩, table)
  else (some ⟨409, "Device with this ID already exists"⟩, table)

/-- update_device_in_db: the expression builder skips the id key; an
empty remaining SET list or a duplicate last_updated path raises a
ValidationException (500); the failed existence guard maps to 404. -/
def update_device_in_db (avail : Bool) (now device_id : String)
    (update_data : Dict) (table : List Dict) : Option ErrResp × List Dict :=
  if avail then
    let upd := update_data.filter (fun kv => kv.1 != "id")
    if upd.isEmpty then (some ⟨500, "Internal server error"⟩, table)
    else if hasKey upd "last_updated" then
      (some ⟨500, "Internal server error"⟩, table)
    else
      match updateItemIfExists table device_id
          (upd ++ [("last_updated", Value.vStr now)]) with
      | some t => (none, t)
      | none => (some ⟨404, "Device not found"⟩, table)
  else (some ⟨500, "Internal server error"⟩, table)

def DEVICE_BASIC_FIELDS : List String :=
  ["name", "description", "model", "version", "ip_address", "status"]

def DEVICE_STORAGE_FIELDS : List String := ["storage_left", "storage_consumed"]

def DEVICE_UPDATE_ALLOWED_FIELDS : List String :=
  DEVICE_BASIC_FIELDS ++ DEVICE_ARRAY_FIELDS ++ DEVICE_STORAGE_FIELDS

/-- One entry of convert_storage_values: absent or null gives a Python
None entry; otherwise Decimal(str(value)), whose failure (modelled by the
parameter dec returning none) raises. -/
def convOneStorage (dec : Value → Option Value) (body : Dict) (k : String) :
    Option (String × Option Value) :=
  match dget body k with
  | none => some (k, none)
  | some Value.vNull => some (k, none)
  | some v => (dec v).map (fun d => (k, some d))

/-- convert_storage_values: both storage fields converted. -/
def convert_storage_values (dec : Value → Option Value) (body : Dict) :
    Option (List (String × Option Value)) :=
  match convOneStorage dec body "storage_left",
      convOneStorage dec body "storage_consumed" with
  | some a, some b => some [a, b]
  | _, _ => none

/-- The inclusion step of the storage loop of prepare_update_data
(device): the field must have been in the original body and its converted
value must not be None. -/
def storInclude (body : Dict) (kv : String × Option Value) :
    Option (String × Value) :=
  match kv.2 with
  | some v => if hasKey body kv.1 then some (kv.1, v) else none
  | none => none

/-- prepare_update_data (device): basic fields present in the body, then
the parsed array fields present in the body, then the storage fields
present in the body whose converted value is not None.  none models an
exception escaping from Decimal. -/
def prepare_update_data_device (loads : String → Option Value)
    (dec : Value → Option Value) (body : Dict) : Option Dict :=
  let basic := filterAllowed DEVICE_BASIC_FIELDS body
  let arrays := parse_array_fields loads DEVICE_ARRAY_FIELDS body
  let withArrays := basic ++ arrays.filter (fun kv => hasKey body kv.1)
  match convert_storage_values dec body with
  | none => none
  | some st => some (withArrays ++ st.filterMap (storInclude body))

/-! Content helpers (src/lambda/content/utils/helpers.py). -/

/-- update_content_in_db: same shape as the organization update without
the uniqueness scan. -/
def update_content_in_db (avail : Bool) (now content_id : String)
    (update_data : Dict) (table : List Dict) : Option ErrResp × List Dict :=
  if avail then
    if update_data.isEmpty then (some ⟨500, "Internal server error"⟩, table)
    else if hasKey update_data "updated_at" || hasKey update_data "id" then
      (some ⟨500, "Internal server error"⟩, table)
    else
      match updateItemIfExists table content_id
          (update_data ++ [("updated_at", Value.vStr now)]) with
      | some t => (none, t)
      | none => (some ⟨404, "Content not found"⟩, table)
  else (some ⟨500, "Internal server error"⟩, table)

def CONTENT_UPDATE_ALLOWED_FIELDS : List String :=
  ["url", "thumbnail", "title", "description", "is_active", "is_deleted",
   "assigned_to", "playlists", "updated_by"]

/-- The loop of prepare_update_data (content): allow-listed present
fields, array fields normalized through parse_array_fields on the
singleton dict holding them. -/
def prepContentFields (loads : String → Option Value) :
    List String → Dict → Dict
  | [], _ => []
  | f :: rest, body =>
      match dget body f with
      | none => prepContentFields loads rest body
      | some v =>
          if f ∈ CONTENT_ARRAY_FIELDS then
            (f, parseArrayValue loads (some v)) :: prepContentFields loads rest body
          else (f, v) :: prepContentFields loads rest body

/-- prepare_update_data (content). -/
def prepare_update_data_content (loads : String → Option Value)
    (body : Dict) : Dict :=
  prepContentFields loads CONTENT_UPDATE_ALLOWED_FIELDS body

/-! Handler pipeline for creation (create_organization.py), used to state
that validation failures never reach the store. -/

/-- Handler result: an error response or a success response with data. -/
inductive HResp where
  | err (statusCode : Nat) (error : String)
  | ok (statusCode : Nat) (data : Dict)
deriving DecidableEq, Repr

/-- The handler of create_organization.py: parse (the body arrives already
parsed here), validate required fields, build the record, save it; a
validation error returns before any store call. -/
def create_organization_handler (requiredFields : List (String × String))
    (avail : Bool) (oid now : String) (body : Dict) (table : List Dict) :
    HResp × List Dict :=
  match validate_required_fields requiredFields body with
  | some e => (HResp.err e.statusCode e.error, table)
  | none =>
      match create_organization_data oid now body with
      | none => (HResp.err 500 "Internal server error", table)
      | some od =>
          match save_organization_to_db avail od table with
          | (some e, t) => (HResp.err e.statusCode e.error, t)
          | (none, t) => (HResp.ok 201 od, t)

/-! Supporting lemmas about the dict and store layer. -/

theorem hasKey_append (a b : Dict) (k : String) :
    hasKey (a ++ b) k = (hasKey a k || hasKey b k) := by
  induction a with
  | nil => simp
  | cons p rest ih =>
      obtain ⟨k0, v0⟩ := p
      rw [List.cons_append]
      simp [ih, Bool.or_assoc]

theorem dkeys_append (a b : Dict) : dkeys (a ++ b) = dkeys a ++ dkeys b := by
  induction a with
  | nil => simp
  | cons p rest ih =>
      obtain ⟨k0, v0⟩ := p
      rw [List.cons_append]
      simp [ih]

theorem dget_dremove_self (d : Dict) (k : String) (hnd : (dkeys d).Nodup) :
    dget (dremove d k) k = none := by
  induction d with
  | nil => simp [dremove]
  | cons p rest ih =>
      obtain ⟨k0, v0⟩ := p
      simp only [dkeys_cons, List.nodup_cons] at hnd
      by_cases h0 : k0 = k
      · subst h0
        have hd : dremove ((k0, v0) :: rest) k0 = rest := by simp [dremove]
        rw [hd]
        cases hg : dget rest k0 with
        | none => rfl
        | some v =>
            exfalso
            exact hnd.1 ((hasKey_iff_mem_dkeys rest k0).mp
              ((hasKey_iff_dget_isSome rest k0).mpr (by simp [hg])))
      · simp only [dremove, if_neg h0, dget_cons, if_neg h0]
        exact ih hnd.2

theorem hasKey_dremove_self (d : Dict) (k : String) (hnd : (dkeys d).Nodup) :
    hasKey (dremove d k) k = false := by
  by_contra hh
  have h1 : hasKey (dremove d k) k = true := by
    cases h : hasKey (dremove d k) k
    · exact absurd h hh
    · rfl
  have h2 := (hasKey_iff_dget_isSome _ k).mp h1
  rw [dget_dremove_self d k hnd] at h2
  simp at h2

theorem scanEq_eq_nil (table : List Dict) (f : String) (v : Value)
    (h : ∀ r ∈ table, dget r f ≠ some v) : scanEq table f v = [] := by
  simp only [scanEq, List.filter_eq_nil_iff, decide_eq_true_eq]
  exact h

theorem scanEq_ne_nil (table : List Dict) (f : String) (v : Value) (r : Dict)
    (hr : r ∈ table) (hv : dget r f = some v) : scanEq table f v ≠ [] := by
  intro hnil
  have : r ∈ scanEq table f v := by
    simp only [scanEq, List.mem_filter, decide_eq_true_eq]
    exact ⟨hr, hv⟩
  rw [hnil] at this
  simp at this

theorem putItemIfAbsent_fresh (table : List Dict) (item : Dict)
    (h : ∀ r ∈ table, dget r "id" ≠ dget item "id") :
    putItemIfAbsent table item = some (table ++ [item]) := by
  have hany : table.any (fun r => decide (dget r "id" = dget item "id")) = false := by
    simp only [List.any_eq_false, decide_eq_true_eq]
    exact h
  simp [putItemIfAbsent, hany]

theorem putItemIfAbsent_conflict (table : List Dict) (item : Dict) (r : Dict)
    (hr : r ∈ table) (h : dget r "id" = dget item "id") :
    putItemIfAbsent table item = none := by
  have hany : table.any (fun x => decide (dget x "id" = dget item "id")) = true := by
    simp only [List.any_eq_true, decide_eq_true_eq]
    exact ⟨r, hr, h⟩
  simp [putItemIfAbsent, hany]

theorem updateItemIfExists_some (table : List Dict) (i : String) (upd : Dict)
    (t : List Dict) (h : updateItemIfExists table i upd = some t) :
    t = table.map (fun r =>
      if dget r "id" = some (Value.vStr i) then applyUpdates r upd else r) := by
  by_cases he : existsId table i
  · simp only [updateItemIfExists, if_pos he, Option.some.injEq] at h
    exact h.symm
  · simp [updateItemIfExists, he] at h

theorem updateItemIfExists_absent (table : List Dict) (i : String) (upd : Dict)
    (h : existsId table i = false) : updateItemIfExists table i upd = none := by
  simp [updateItemIfExists, h]

theorem dget_applyUpdates_not_mem (upd : Dict) (r : Dict) (k : String)
    (h : hasKey upd k = false) : dget (applyUpdates r upd) k = dget r k := by
  induction upd generalizing r with
  | nil => simp [applyUpdates]
  | cons p rest ih =>
      obtain ⟨k0, v0⟩ := p
      simp only [hasKey_cons, Bool.or_eq_false_iff, decide_eq_false_iff_not] at h
      simp only [applyUpdates]
      rw [ih (dinsert r k0 v0) h.2, dget_dinsert_ne r k0 k v0 h.1]

theorem dget_applyUpdates_mem (upd : Dict) (r : Dict) (k : String)
    (hnd : (dkeys upd).Nodup) (h : hasKey upd k = true) :
    dget (applyUpdates r upd) k = dget upd k := by
  induction upd generalizing r with
  | nil => simp at h
  | cons p rest ih =>
      obtain ⟨k0, v0⟩ := p
      simp only [dkeys_cons, List.nodup_cons] at hnd
      by_cases h0 : k0 = k
      · subst h0
        have hrest : hasKey rest k0 = false := by
          by_contra hh
          have : hasKey rest k0 = true := by
            cases hx : hasKey rest k0
            · exact absurd hx hh
            · rfl
          exact hnd.1 ((hasKey_iff_mem_dkeys rest k0).mp this)
        simp only [applyUpdates]
        rw [dget_applyUpdates_not_mem rest (dinsert r k0 v0) k0 hrest,
          dget_dinsert_self]
        simp
      · simp only [hasKey_cons, Bool.or_eq_true, decide_eq_true_eq] at h
        rcases h with h | h
        · exact absurd h h0
        · simp only [applyUpdates]
          rw [ih (dinsert r k0 v0) hnd.2 h]
          simp [h0]

theorem filter_ne_id_of_no_id (upd : Dict) (h : hasKey upd "id" = false) :
    upd.filter (fun kv => kv.1 != "id") = upd := by
  induction upd with
  | nil => simp
  | cons p rest ih =>
      obtain ⟨k0, v0⟩ := p
      simp only [hasKey_cons, Bool.or_eq_false_iff, decide_eq_false_iff_not] at h
      rw [List.filter_cons]
      simp only [bne_iff_ne, ne_eq, h.1, not_false_eq_true, if_pos]
      rw [ih h.2]

/-! Lemmas about the shared prepare/parse loops. -/

theorem dkeys_filterAllowed (allowed : List String) (body : Dict) :
    dkeys (filterAllowed allowed body) =
      allowed.filter (fun f => hasKey body f) := by
  induction allowed with
  | nil => simp [filterAllowed]
  | cons f rest ih =>
      rw [List.filter_cons]
      by_cases h : hasKey body f
      · have hs : (dget body f).isSome := (hasKey_iff_dget_isSome body f).mp h
        cases hg : dget body f with
        | none => rw [hg] at hs; simp at hs
        | some v => simp [filterAllowed, hg, ih, h]
      · have hn : dget body f = none := by
          cases hg : dget body f with
          | none => rfl
          | some v =>
              exact absurd ((hasKey_iff_dget_isSome body f).mpr (by simp [hg])) h
        simp only [Bool.eq_false_iff] at h
        simp [filterAllowed, hn, ih, h]

theorem dget_filterAllowed_not_mem (allowed : List String) (body : Dict)
    (k : String) (h : k ∉ allowed) :
    dget (filterAllowed allowed body) k = none := by
  induction allowed with
  | nil => simp [filterAllowed]
  | cons f rest ih =>
      simp only [List.mem_cons, not_or] at h
      cases hg : dget body f with
      | none => simp [filterAllowed, hg, ih h.2]
      | some v =>
          simp only [filterAllowed, hg, dget_cons]
          rw [if_neg (fun he => h.1 he.symm)]
          exact ih h.2

theorem dget_filterAllowed_mem (allowed : List String) (body : Dict)
    (k : String) (h : k ∈ allowed) :
    dget (filterAllowed allowed body) k = dget body k := by
  induction allowed with
  | nil => simp at h
  | cons f rest ih =>
      by_cases hf : f = k
      · subst hf
        cases hg : dget body f with
        | none =>
            simp only [filterAllowed, hg]
            by_cases hm : f ∈ rest
            · rw [ih hm]
              exact hg
            · exact dget_filterAllowed_not_mem rest body f hm
        | some v => simp [filterAllowed, hg]
      · rcases List.mem_cons.mp h with he | hm
        · exact absurd he.symm hf
        · cases hg : dget body f with
          | none => simp [filterAllowed, hg, ih hm]
          | some v =>
              simp only [filterAllowed, hg, dget_cons]
              rw [if_neg hf]
              exact ih hm

theorem dkeys_parse_array_fields (loads : String → Option Value)
    (fields : List String) (body : Dict) :
    dkeys (parse_array_fields loads fields body) = fields := by
  induction fields with
  | nil => simp [parse_array_fields]
  | cons f rest ih => simp [parse_array_fields] at ih ⊢; exact ih

theorem dget_parse_array_fields (loads : String → Option Value)
    (fields : List String) (body : Dict) (f : String) (h : f ∈ fields) :
    dget (parse_array_fields loads fields body) f =
      some (parseArrayValue loads (dget body f)) := by
  induction fields with
  | nil => simp at h
  | cons g rest ih =>
      by_cases hg : g = f
      · subst hg
        simp [parse_array_fields]
      · rcases List.mem_cons.mp h with he | hm
        · exact absurd he.symm hg
        · simp only [parse_array_fields, List.map_cons, dget_cons, if_neg hg]
          exact ih hm

theorem dkeys_prepUserFields (fields : List String) (body : Dict) (upd : Dict)
    (h : prepUserFields fields body = some upd) :
    dkeys upd = fields.filter (fun f => hasKey body f) := by
  induction fields generalizing upd with
  | nil =>
      simp only [prepUserFields, Option.some.injEq] at h
      simp [← h]
  | cons f rest ih =>
      rw [List.filter_cons]
      cases hg : dget body f with
      | none =>
          have hk : hasKey body f = false := by
            cases hx : hasKey body f
            · rfl
            · have := (hasKey_iff_dget_isSome body f).mp hx
              rw [hg] at this
              simp at this
          simp only [prepUserFields, hg] at h
          simp [hk, ih upd h]
      | some v =>
          have hk : hasKey body f = true :=
            (hasKey_iff_dget_isSome body f).mpr (by simp [hg])
          simp only [prepUserFields, hg] at h
          by_cases hp : f = "password"
          · rw [if_pos hp] at h
            cases v with
            | vStr p =>
                rcases Option.map_eq_some'.mp h with ⟨upd0, h0, hupd⟩
                subst hupd
                simp [hk, ih upd0 h0]
            | vNum n => simp at h
            | vBool b => simp at h
            | vNull => simp at h
            | vArr xs => simp at h
          · rw [if_neg hp] at h
            rcases Option.map_eq_some'.mp h with ⟨upd0, h0, hupd⟩
            subst hupd
            simp [hk, ih upd0 h0]

theorem dkeys_prepContentFields (loads : String → Option Value)
    (fields : List String) (body : Dict) :
    dkeys (prepContentFields loads fields body) =
      fields.filter (fun f => hasKey body f) := by
  induction fields with
  | nil => simp [prepContentFields]
  | cons f rest ih =>
      rw [List.filter_cons]
      cases hg : dget body f with
      | none =>
          have hk : hasKey body f = false := by
            cases hx : hasKey body f
            · rfl
            · have := (hasKey_iff_dget_isSome body f).mp hx
              rw [hg] at this
              simp at this
          simp [prepContentFields, hg, hk, ih]
      | some v =>
          have hk : hasKey body f = true :=
            (hasKey_iff_dget_isSome body f).mpr (by simp [hg])
          by_cases hc : f ∈ CONTENT_ARRAY_FIELDS
          · simp [prepContentFields, hg, hk, hc, ih]
          · simp [prepContentFields, hg, hk, hc, ih]

theorem dkeys_arrays_filtered (loads : String → Option Value)
    (fields : List String) (body : Dict) :
    dkeys ((parse_array_fields loads fields body).filter
        (fun kv => hasKey body kv.1)) =
      fields.filter (fun f => hasKey body f) := by
  induction fields with
  | nil => simp [parse_array_fields]
  | cons f rest ih =>
      simp only [parse_array_fields, List.map_cons] at ih ⊢
      rw [List.filter_cons, List.filter_cons]
      cases hk : hasKey body f
      · simpa [hk] using ih
      · simpa [hk] using ih

theorem convOneStorage_fst (dec : Value → Option Value) (body : Dict)
    (k : String) (pr : String × Option Value)
    (h : convOneStorage dec body k = some pr) : pr.1 = k := by
  unfold convOneStorage at h
  cases hg : dget body k with
  | none =>
      rw [hg] at h
      simp only [Option.some.injEq] at h
      simp [← h]
  | some v =>
      rw [hg] at h
      cases v with
      | vNull =>
          simp only [Option.some.injEq] at h
          simp [← h]
      | vStr s =>
          rcases Option.map_eq_some'.mp h with ⟨d, _, hpr⟩
          simp [← hpr]
      | vNum n =>
          rcases Option.map_eq_some'.mp h with ⟨d, _, hpr⟩
          simp [← hpr]
      | vBool b =>
          rcases Option.map_eq_some'.mp h with ⟨d, _, hpr⟩
          simp [← hpr]
      | vArr xs =>
          rcases Option.map_eq_some'.mp h with ⟨d, _, hpr⟩
          simp [← hpr]

theorem convert_storage_values_shape (dec : Value → Option Value) (body : Dict)
    (st : List (String × Option Value))
    (h : convert_storage_values dec body = some st) :
    ∃ o1 o2, st = [("storage_left", o1), ("storage_consumed", o2)] := by
  unfold convert_storage_values at h
  cases h1 : convOneStorage dec body "storage_left" with
  | none => rw [h1] at h; simp at h
  | some a =>
      cases h2 : convOneStorage dec body "storage_consumed" with
      | none => rw [h1, h2] at h; simp at h
      | some b =>
          rw [h1, h2] at h
          simp only [Option.some.injEq] at h
          have ha := convOneStorage_fst dec body "storage_left" a h1
          have hb := convOneStorage_fst dec body "storage_consumed" b h2
          refine ⟨a.2, b.2, ?_⟩
          rw [← h]
          rw [← ha, ← hb]

theorem storInclude_some (body : Dict) (kv : String × Option Value)
    (p : String × Value) (h : storInclude body kv = some p) :
    p.1 = kv.1 ∧ hasKey body kv.1 = true := by
  obtain ⟨k1, o⟩ := kv
  cases o with
  | none => simp [storInclude] at h
  | some v =>
      by_cases hk : hasKey body k1
      · simp only [storInclude, if_pos hk, Option.some.injEq] at h
        refine ⟨?_, hk⟩
        rw [← h]
      · simp [storInclude, hk] at h

theorem mem_dkeys (d : Dict) (k : String) :
    k ∈ dkeys d ↔ ∃ v, (k, v) ∈ d := by
  induction d with
  | nil => simp
  | cons p rest ih =>
      obtain ⟨k0, v0⟩ := p
      simp only [dkeys_cons, List.mem_cons, ih, Prod.mk.injEq]
      constructor
      · rintro (h | ⟨v, hv⟩)
        · exact ⟨v0, Or.inl ⟨h, rfl⟩⟩
        · exact ⟨v, Or.inr hv⟩
      · rintro ⟨v, (⟨h1, h2⟩ | hv)⟩
        · exact Or.inl h1
        · exact Or.inr ⟨v, hv⟩

theorem storPart_keys_nodup (body : Dict) (o1 o2 : Option Value) :
    (dkeys (([("storage_left", o1), ("storage_consumed", o2)] :
        List (String × Option Value)).filterMap (storInclude body))).Nodup := by
  rcases o1 with _ | v1 <;> rcases o2 with _ | v2 <;>
    simp only [List.filterMap_cons, List.filterMap_nil, storInclude] <;>
    first
    | (split_ifs <;> simp)
    | simp

theorem storPart_keys_sub (body : Dict) (st : List (String × Option Value))
    (o1 o2 : Option Value)
    (hst : st = [("storage_left", o1), ("storage_consumed", o2)]) :
    ∀ k ∈ dkeys (st.filterMap (storInclude body)),
      k ∈ DEVICE_STORAGE_FIELDS ∧ hasKey body k = true := by
  subst hst
  intro k hk
  rcases (mem_dkeys _ k).mp hk with ⟨v, hv⟩
  rcases List.mem_filterMap.mp hv with ⟨kv, hkv, hsome⟩
  rcases storInclude_some body kv (k, v) hsome with ⟨h1, h2⟩
  simp only at h1
  subst h1
  rcases List.mem_cons.mp hkv with h | h
  · rw [h]
    exact ⟨by simp [DEVICE_STORAGE_FIELDS], by rw [h] at h2; exact h2⟩
  · rcases List.mem_cons.mp h with h | h
    · rw [h]
      exact ⟨by simp [DEVICE_STORAGE_FIELDS], by rw [h] at h2; exact h2⟩
    · simp at h

theorem prepare_device_parts (loads : String → Option Value)
    (dec : Value → Option Value) (body : Dict) (upd : Dict)
    (h : prepare_update_data_device loads dec body = some upd) :
    ∃ o1 o2, upd =
      (filterAllowed DEVICE_BASIC_FIELDS body ++
        (parse_array_fields loads DEVICE_ARRAY_FIELDS body).filter
          (fun kv => hasKey body kv.1)) ++
      (([("storage_left", o1), ("storage_consumed", o2)] :
        List (String × Option Value)).filterMap (storInclude body)) := by
  unfold prepare_update_data_device at h
  cases hc : convert_storage_values dec body with
  | none => rw [hc] at h; simp at h
  | some st =>
      rw [hc] at h
      simp only [Option.some.injEq] at h
      rcases convert_storage_values_shape dec body st hc with ⟨o1, o2, hsh⟩
      exact ⟨o1, o2, by rw [← h, hsh]⟩

theorem prepare_device_keys_sub (loads : String → Option Value)
    (dec : Value → Option Value) (body : Dict) (upd : Dict) (k : String)
    (h : prepare_update_data_device loads dec body = some upd)
    (hk : hasKey upd k = true) :
    k ∈ DEVICE_UPDATE_ALLOWED_FIELDS ∧ hasKey body k = true := by
  rcases prepare_device_parts loads dec body upd h with ⟨o1, o2, hupd⟩
  subst hupd
  rw [hasKey_append, hasKey_append] at hk
  simp only [Bool.or_eq_true] at hk
  rcases hk with (hk | hk) | hk
  · have hm := (hasKey_iff_mem_dkeys _ k).mp hk
    rw [dkeys_filterAllowed] at hm
    rcases List.mem_filter.mp hm with ⟨h1, h2⟩
    refine ⟨?_, h2⟩
    simp only [DEVICE_UPDATE_ALLOWED_FIELDS, List.mem_append]
    exact Or.inl (Or.inl h1)
  · have hm := (hasKey_iff_mem_dkeys _ k).mp hk
    rw [dkeys_arrays_filtered] at hm
    rcases List.mem_filter.mp hm with ⟨h1, h2⟩
    refine ⟨?_, h2⟩
    simp only [DEVICE_UPDATE_ALLOWED_FIELDS, List.mem_append]
    exact Or.inl (Or.inr h1)
  · have hm := (hasKey_iff_mem_dkeys _ k).mp hk
    rcases storPart_keys_sub body _ o1 o2 rfl k hm with ⟨h1, h2⟩
    refine ⟨?_, h2⟩
    simp only [DEVICE_UPDATE_ALLOWED_FIELDS, List.mem_append]
    exact Or.inr h1

theorem prepare_device_keys_nodup (loads : String → Option Value)
    (dec : Value → Option Value) (body : Dict) (upd : Dict)
    (h : prepare_update_data_device loads dec body = some upd) :
    (dkeys upd).Nodup := by
  rcases prepare_device_parts loads dec body upd h with ⟨o1, o2, hupd⟩
  subst hupd
  rw [dkeys_append, dkeys_append, dkeys_filterAllowed, dkeys_arrays_filtered]
  rw [List.nodup_append, List.nodup_append]
  refine ⟨⟨?_, ?_, ?_⟩, storPart_keys_nodup body o1 o2, ?_⟩
  · exact List.Nodup.filter _ (by decide : DEVICE_BASIC_FIELDS.Nodup)
  · exact List.Nodup.filter _ (by decide : DEVICE_ARRAY_FIELDS.Nodup)
  · intro a ha hb
    have h1 : a ∈ DEVICE_BASIC_FIELDS := (List.mem_filter.mp ha).1
    have h2 : a ∈ DEVICE_ARRAY_FIELDS := (List.mem_filter.mp hb).1
    have : ∀ x ∈ DEVICE_BASIC_FIELDS, x ∉ DEVICE_ARRAY_FIELDS := by decide
    exact this a h1 h2
  · intro a ha hb
    have h1 : a ∈ DEVICE_BASIC_FIELDS ++ DEVICE_ARRAY_FIELDS := by
      rcases List.mem_append.mp ha with h | h
      · exact List.mem_append.mpr (Or.inl (List.mem_filter.mp h).1)
      · exact List.mem_append.mpr (Or.inr (List.mem_filter.mp h).1)
    have h2 : a ∈ DEVICE_STORAGE_FIELDS :=
      (storPart_keys_sub body _ o1 o2 rfl a hb).1
    have : ∀ x ∈ DEVICE_BASIC_FIELDS ++ DEVICE_ARRAY_FIELDS,
        x ∉ DEVICE_STORAGE_FIELDS := by decide
    exact this a h1 h2

theorem dkeys_lowerEmailField (upd : Dict) :
    dkeys (lowerEmailField upd) = dkeys upd := by
  induction upd with
  | nil => simp [lowerEmailField]
  | cons p rest ih =>
      obtain ⟨k0, v0⟩ := p
      by_cases h : k0 = "email" <;>
        simp [lowerEmailField, h] at ih ⊢ <;> exact ih

theorem hasKey_congr_dkeys (a b : Dict) (h : dkeys a = dkeys b) (k : String) :
    hasKey a k = hasKey b k := by
  have h1 := hasKey_iff_mem_dkeys a k
  have h2 := hasKey_iff_mem_dkeys b k
  rw [h] at h1
  cases hb : hasKey b k
  · cases hx : hasKey a k
    · rfl
    · exact absurd (h2.mpr (h1.mp hx)) (by simp [hb])
  · exact h1.mpr (h2.mp hb)

/-! Frame-preservation machinery: position j of the table after an
operation holds the same value at field k as before. -/

/-- Every position of the table holds the same value at field k as before
(out-of-range positions read the empty item on both sides). -/
def framePreserved (t t2 : List Dict) (k : String) : Prop :=
  t2.length = t.length ∧ ∀ j, dget (t2.getD j []) k = dget (t.getD j []) k

theorem framePreserved_refl (t : List Dict) (k : String) :
    framePreserved t t k := ⟨rfl, fun _ => rfl⟩

theorem framePreserved_map (t : List Dict) (g : Dict → Dict) (k : String)
    (hg : ∀ r, dget (g r) k = dget r k) :
    framePreserved t (t.map g) k := by
  refine ⟨by simp, ?_⟩
  intro j
  induction t generalizing j with
  | nil => simp
  | cons r rest ih =>
      cases j with
      | zero => simpa using hg r
      | succ n => simpa using ih n

/-! Branch analysis of the update helpers. -/

theorem org_update_write_snd (now oid : String) (upd : Dict) (table : List Dict) :
    (org_update_write now oid upd table).snd = table ∨
    ((org_update_write now oid upd table).snd = table.map (fun r =>
        if dget r "id" = some (Value.vStr oid)
        then applyUpdates r (upd ++ [("updated_at", Value.vStr now)]) else r) ∧
      hasKey upd "updated_at" = false ∧ hasKey upd "id" = false) := by
  unfold org_update_write
  cases h1 : upd.isEmpty
  · cases h2 : (hasKey upd "updated_at" || hasKey upd "id")
    · rcases Bool.or_eq_false_iff.mp h2 with ⟨h2a, h2b⟩
      cases hu : updateItemIfExists table oid
          (upd ++ [("updated_at", Value.vStr now)]) with
      | none => simp [h1, h2, hu]
      | some t =>
          right
          refine ⟨?_, h2a, h2b⟩
          simp only [h1, h2, hu, Bool.false_eq_true, if_false]
          exact updateItemIfExists_some table oid _ t hu
    · simp [h1, h2]
  · simp [h1]

theorem org_update_write_success (now oid : String) (upd : Dict)
    (table t2 : List Dict)
    (h : org_update_write now oid upd table = (none, t2)) :
    hasKey upd "updated_at" = false ∧ hasKey upd "id" = false ∧
    existsId table oid = true ∧
    t2 = table.map (fun r => if dget r "id" = some (Value.vStr oid)
      then applyUpdates r (upd ++ [("updated_at", Value.vStr now)]) else r) := by
  unfold org_update_write at h
  cases h1 : upd.isEmpty
  · rw [h1] at h
    cases h2 : (hasKey upd "updated_at" || hasKey upd "id")
    · rw [h2] at h
      simp only [Bool.false_eq_true, if_false] at h
      rcases Bool.or_eq_false_iff.mp h2 with ⟨h2a, h2b⟩
      cases hu : updateItemIfExists table oid
          (upd ++ [("updated_at", Value.vStr now)]) with
      | none => rw [hu] at h; simp [Prod.ext_iff] at h
      | some t =>
          rw [hu] at h
          simp only [Prod.mk.injEq] at h
          refine ⟨h2a, h2b, ?_, ?_⟩
          · by_cases he : existsId table oid
            · exact he
            · rw [updateItemIfExists_absent table oid _
                (Bool.eq_false_iff.mpr he)] at hu
              simp at hu
          · rw [← h.2]
            exact updateItemIfExists_some table oid _ t hu
    · rw [h2] at h
      simp [Prod.ext_iff] at h
  · rw [h1] at h
    simp [Prod.ext_iff] at h

theorem update_org_cases (avail : Bool) (now oid : String) (upd : Dict)
    (table : List Dict) :
    update_organization_in_db avail now oid upd table =
      org_update_write now oid upd table ∨
    ∃ e, update_organization_in_db avail now oid upd table = (some e, table) := by
  unfold update_organization_in_db
  split
  · split
    · split
      · exact Or.inr ⟨⟨409, "Organization with this license already exists"⟩, rfl⟩
      · exact Or.inl rfl
    · exact Or.inl rfl
  · exact Or.inr ⟨⟨500, "Internal server error"⟩, rfl⟩

theorem user_update_write_snd (now uid : String) (upd : Dict)
    (table : List Dict) :
    (user_update_write now uid upd table).snd = table ∨
    ((user_update_write now uid upd table).snd = table.map (fun r =>
        if dget r "id" = some (Value.vStr uid)
        then applyUpdates r
          (lowerEmailField upd ++ [("updated_at", Value.vStr now)]) else r) ∧
      hasKey upd "updated_at" = false ∧ hasKey upd "id" = false) := by
  unfold user_update_write
  cases h1 : upd.isEmpty
  · cases h2 : (hasKey upd "updated_at" || hasKey upd "id")
    · rcases Bool.or_eq_false_iff.mp h2 with ⟨h2a, h2b⟩
      cases hu : updateItemIfExists table uid
          (lowerEmailField upd ++ [("updated_at", Value.vStr now)]) with
      | none => simp [h1, h2, hu]
      | some t =>
          right
          refine ⟨?_, h2a, h2b⟩
          simp only [h1, h2, hu, Bool.false_eq_true, if_false]
          exact updateItemIfExists_some table uid _ t hu
    · simp [h1, h2]
  · simp [h1]

theorem update_user_cases (avail : Bool) (now uid : String) (upd : Dict)
    (table : List Dict) :
    update_user_in_db avail now uid upd table =
      user_update_write now uid upd table ∨
    ∃ e, update_user_in_db avail now uid upd table = (some e, table) := by
  unfold update_user_in_db
  split
  · split
    · split
      · split
        · exact Or.inr ⟨⟨409, "User with this email already exists"⟩, rfl⟩
        · exact Or.inl rfl
      · exact Or.inr ⟨⟨500, "Internal server error"⟩, rfl⟩
    · exact Or.inl rfl
  · exact Or.inr ⟨⟨500, "Internal server error"⟩, rfl⟩

theorem update_device_snd (avail : Bool) (now did : String) (upd : Dict)
    (table : List Dict) :
    (update_device_in_db avail now did upd table).snd = table ∨
    ((update_device_in_db avail now did upd table).snd = table.map (fun r =>
        if dget r "id" = some (Value.vStr did)
        then applyUpdates r (upd.filter (fun kv => kv.1 != "id") ++
          [("last_updated", Value.vStr now)]) else r) ∧
      hasKey (upd.filter (fun kv => kv.1 != "id")) "last_updated" = false) := by
  unfold update_device_in_db
  cases ha : avail
  · simp
  · simp only [if_true]
    cases h1 : (upd.filter (fun kv => kv.1 != "id")).isEmpty
    · cases h2 : hasKey (upd.filter (fun kv => kv.1 != "id")) "last_updated"
      · cases hu : updateItemIfExists table did
            (upd.filter (fun kv => kv.1 != "id") ++
              [("last_updated", Value.vStr now)]) with
        | none => simp [h1, h2, hu]
        | some t =>
            right
            refine ⟨?_, rfl⟩
            simp only [h1, h2, hu, Bool.false_eq_true, if_false]
            exact updateItemIfExists_some table did _ t hu
      · simp [h1, h2]
    · simp [h1]

theorem update_device_success (avail : Bool) (now did : String) (upd : Dict)
    (table t2 : List Dict)
    (h : update_device_in_db avail now did upd table = (none, t2)) :
    existsId table did = true ∧
    t2 = table.map (fun r => if dget r "id" = some (Value.vStr did)
      then applyUpdates r (upd.filter (fun kv => kv.1 != "id") ++
        [("last_updated", Value.vStr now)]) else r) := by
  unfold update_device_in_db at h
  cases ha : avail
  · rw [ha] at h; simp [Prod.ext_iff] at h
  · rw [ha] at h
    simp only [if_true] at h
    cases h1 : (upd.filter (fun kv => kv.1 != "id")).isEmpty
    · rw [h1] at h
      simp only [Bool.false_eq_true, if_false] at h
      cases h2 : hasKey (upd.filter (fun kv => kv.1 != "id")) "last_updated"
      · rw [h2] at h
        simp only [Bool.false_eq_true, if_false] at h
        cases hu : updateItemIfExists table did
            (upd.filter (fun kv => kv.1 != "id") ++
              [("last_updated", Value.vStr now)]) with
        | none => rw [hu] at h; simp [Prod.ext_iff] at h
        | some t =>
            rw [hu] at h
            simp only [Prod.mk.injEq] at h
            refine ⟨?_, ?_⟩
            · by_cases he : existsId table did
              · exact he
              · rw [updateItemIfExists_absent table did _
                  (Bool.eq_false_iff.mpr he)] at hu
                simp at hu
            · rw [← h.2]
              exact updateItemIfExists_some table did _ t hu
      · rw [h2] at h
        simp [Prod.ext_iff] at h
    · rw [h1] at h
      simp [Prod.ext_iff] at h

theorem update_content_success (avail : Bool) (now cid : String) (upd : Dict)
    (table t2 : List Dict)
    (h : update_content_in_db avail now cid upd table = (none, t2)) :
    existsId table cid = true ∧
    t2 = table.map (fun r => if dget r "id" = some (Value.vStr cid)
      then applyUpdates r (upd ++ [("updated_at", Value.vStr now)]) else r) := by
  unfold update_content_in_db at h
  cases ha : avail
  · rw [ha] at h; simp [Prod.ext_iff] at h
  · rw [ha] at h
    simp only [if_true] at h
    cases h1 : upd.isEmpty
    · rw [h1] at h
      simp only [Bool.false_eq_true, if_false] at h
      cases h2 : (hasKey upd "updated_at" || hasKey upd "id")
      · rw [h2] at h
        simp only [Bool.false_eq_true, if_false] at h
        cases hu : updateItemIfExists table cid
            (upd ++ [("updated_at", Value.vStr now)]) with
        | none => rw [hu] at h; simp [Prod.ext_iff] at h
        | some t =>
            rw [hu] at h
            simp only [Prod.mk.injEq] at h
            refine ⟨?_, ?_⟩
            · by_cases he : existsId table cid
              · exact he
              · rw [updateItemIfExists_absent table cid _
                  (Bool.eq_false_iff.mpr he)] at hu
                simp at hu
            · rw [← h.2]
              exact updateItemIfExists_some table cid _ t hu
      · rw [h2] at h
        simp [Prod.ext_iff] at h
    · rw [h1] at h
      simp [Prod.ext_iff] at h

/-! Lemmas about required-field validation. -/

theorem validate_isSome_of_falsy (fields : List (String × String)) (body : Dict)
    (nm col : String) (hmem : (nm, col) ∈ fields)
    (hf : isFalsyOpt (dget body col) = true) :
    ∃ e, validate_required_fields fields body = some e := by
  induction fields with
  | nil => simp at hmem
  | cons p rest ih =>
      obtain ⟨nm0, col0⟩ := p
      unfold validate_required_fields
      cases h0 : isFalsyOpt (dget body col0)
      · rcases List.mem_cons.mp hmem with he | hm
        · exfalso
          have : col0 = col := congrArg Prod.snd he.symm
          rw [this, hf] at h0
          simp at h0
        · simpa [h0] using ih hm
      · exact ⟨⟨400, nm0 ++ " is required"⟩, by simp [h0]⟩

theorem validate_statusCode_400 (fields : List (String × String)) (body : Dict)
    (e : ErrResp) (h : validate_required_fields fields body = some e) :
    e.statusCode = 400 := by
  induction fields with
  | nil => simp [validate_required_fields] at h
  | cons p rest ih =>
      obtain ⟨nm0, col0⟩ := p
      unfold validate_required_fields at h
      cases h0 : isFalsyOpt (dget body col0)
      · rw [h0] at h
        simp only [Bool.false_eq_true, if_false] at h
        exact ih h
      · rw [h0] at h
        simp only [if_true, Option.some.injEq] at h
        rw [← h]

theorem validate_eq_dremove (fields : List (String × String)) (body : Dict)
    (col : String) (hf : isFalsyOpt (dget body col) = true)
    (hnd : (dkeys body).Nodup) :
    validate_required_fields fields body =
      validate_required_fields fields (dremove body col) := by
  induction fields with
  | nil => rfl
  | cons p rest ih =>
      obtain ⟨nm0, col0⟩ := p
      unfold validate_required_fields
      by_cases hc : col0 = col
      · subst hc
        rw [hf, dget_dremove_self body col0 hnd]
        simp [isFalsyOpt, ih]
      · rw [dget_dremove_ne body col col0 (fun he => hc he.symm)]
        cases h0 : isFalsyOpt (dget body col0) <;> simp [h0, ih]

theorem isEmpty_false_of_mem {α : Type} (l : List α) (a : α) (h : a ∈ l) :
    l.isEmpty = false := by
  cases l with
  | nil => simp at h
  | cons x rest => rfl

/-! The claims. -/

/-- C4: for every raw field mapping and declared array field, the
parse_array_fields output at that field is the parsed array for a valid
JSON array string, the empty sequence for an undecodable string / an
absent field / null, and the unchanged sequence when the field already
holds one. -/
theorem claim_C4 (loads : String → Option Value) (fields : List String)
    (body : Dict) (f : String) (hf : f ∈ fields) :
    (∀ s xs, dget body f = some (Value.vStr s) → loads s = some (Value.vArr xs) →
      dget (parse_array_fields loads fields body) f = some (Value.vArr xs)) ∧
    (∀ s, dget body f = some (Value.vStr s) → loads s = none →
      dget (parse_array_fields loads fields body) f = some (Value.vArr [])) ∧
    (dget body f = none →
      dget (parse_array_fields loads fields body) f = some (Value.vArr [])) ∧
    (dget body f = some Value.vNull →
      dget (parse_array_fields loads fields body) f = some (Value.vArr [])) ∧
    (∀ xs, dget body f = some (Value.vArr xs) →
      dget (parse_array_fields loads fields body) f = some (Value.vArr xs)) := by
  have base := dget_parse_array_fields loads fields body f hf
  refine ⟨?_, ?_, ?_, ?_, ?_⟩
  · intro s xs hb hl
    rw [base, hb]
    simp [parseArrayValue, hl]
  · intro s hb hl
    rw [base, hb]
    simp [parseArrayValue, hl]
  · intro hb
    rw [base, hb]
    simp [parseArrayValue]
  · intro hb
    rw [base, hb]
    simp [parseArrayValue]
  · intro xs hb
    rw [base, hb]
    simp [parseArrayValue]

/-- Witness for C4 at concrete inputs, one per case. -/
theorem claim_C4_witness :
    dget (parse_array_fields
        (fun s => if s = "[\"a\"]" then some (Value.vArr ["a"]) else none)
        DEVICE_ARRAY_FIELDS [("playlists", Value.vStr "[\"a\"]")]) "playlists" =
      some (Value.vArr ["a"]) ∧
    dget (parse_array_fields (fun _ => none) DEVICE_ARRAY_FIELDS
        [("playlists", Value.vStr "not json")]) "playlists" =
      some (Value.vArr []) ∧
    dget (parse_array_fields (fun _ => none) DEVICE_ARRAY_FIELDS
        ([] : Dict)) "playlists" = some (Value.vArr []) ∧
    dget (parse_array_fields (fun _ => none) DEVICE_ARRAY_FIELDS
        [("playlists", Value.vNull)]) "playlists" = some (Value.vArr []) ∧
    dget (parse_array_fields (fun _ => none) DEVICE_ARRAY_FIELDS
        [("playlists", Value.vArr ["x"])]) "playlists" =
      some (Value.vArr ["x"]) := by
  refine ⟨?_, ?_, ?_, ?_, ?_⟩
  · exact (claim_C4 _ DEVICE_ARRAY_FIELDS _ "playlists" (by decide)).1
      "[\"a\"]" ["a"] (by decide) (by decide)
  · exact (claim_C4 _ DEVICE_ARRAY_FIELDS _ "playlists" (by decide)).2.1
      "not json" (by decide) (by decide)
  · exact (claim_C4 _ DEVICE_ARRAY_FIELDS _ "playlists" (by decide)).2.2.1
      (by decide)
  · exact (claim_C4 _ DEVICE_ARRAY_FIELDS _ "playlists" (by decide)).2.2.2.1
      (by decide)
  · exact (claim_C4 _ DEVICE_ARRAY_FIELDS _ "playlists" (by decide)).2.2.2.2
      ["x"] (by decide)

/-- C3 counterexample: a non-string, non-null raw value (42) passes
through parse_array_fields unchanged and is not a sequence; likewise a
string holding valid JSON that is not an array ("42", with json.loads
modelled on that input) yields the parsed non-sequence value. -/
theorem claim_C3_counterexample :
    dget (parse_array_fields (fun _ => none) DEVICE_ARRAY_FIELDS
        [("playlists", Value.vNum 42)]) "playlists" = some (Value.vNum 42) ∧
    Value.isArr (Value.vNum 42) = false ∧
    dget (parse_array_fields
        (fun s => if s = "42" then some (Value.vNum 42) else none)
        DEVICE_ARRAY_FIELDS [("playlists", Value.vStr "42")]) "playlists" =
      some (Value.vNum 42) := by
  exact ⟨by decide, rfl, by decide⟩

/-- C3 (amended): the output of parse_array_fields at a declared array
field is the JSON-parsed value of a string field (whatever its type, not
necessarily a sequence), the empty sequence for an undecodable string /
absent / null, and the raw value unchanged (sequence or not) otherwise. -/
theorem claim_C3 (loads : String → Option Value) (fields : List String)
    (body : Dict) (f : String) (hf : f ∈ fields) :
    (∀ s v, dget body f = some (Value.vStr s) → loads s = some v →
      dget (parse_array_fields loads fields body) f = some v) ∧
    (∀ s, dget body f = some (Value.vStr s) → loads s = none →
      dget (parse_array_fields loads fields body) f = some (Value.vArr [])) ∧
    (dget body f = none →
      dget (parse_array_fields loads fields body) f = some (Value.vArr [])) ∧
    (dget body f = some Value.vNull →
      dget (parse_array_fields loads fields body) f = some (Value.vArr [])) ∧
    (∀ v, dget body f = some v → Value.isStr v = false → v ≠ Value.vNull →
      dget (parse_array_fields loads fields body) f = some v) := by
  have base := dget_parse_array_fields loads fields body f hf
  refine ⟨?_, ?_, ?_, ?_, ?_⟩
  · intro s v hb hl
    rw [base, hb]
    simp [parseArrayValue, hl]
  · intro s hb hl
    rw [base, hb]
    simp [parseArrayValue, hl]
  · intro hb
    rw [base, hb]
    simp [parseArrayValue]
  · intro hb
    rw [base, hb]
    simp [parseArrayValue]
  · intro v hb hs hn
    rw [base, hb]
    cases v with
    | vStr s => simp [Value.isStr] at hs
    | vNull => exact absurd rfl hn
    | vNum n => simp [parseArrayValue]
    | vBool b => simp [parseArrayValue]
    | vArr xs => simp [parseArrayValue]

/-- Witness for C3 (amended) at concrete inputs. -/
theorem claim_C3_witness :
    dget (parse_array_fields
        (fun s => if s = "42" then some (Value.vNum 42) else none)
        SCHEDULE_ARRAY_FIELDS [("contents", Value.vStr "42")]) "contents" =
      some (Value.vNum 42) ∧
    dget (parse_array_fields (fun _ => none) SCHEDULE_ARRAY_FIELDS
        [("contents", Value.vBool true)]) "contents" =
      some (Value.vBool true) := by
  refine ⟨?_, ?_⟩
  · exact (claim_C3 _ SCHEDULE_ARRAY_FIELDS _ "contents" (by decide)).1
      "42" (Value.vNum 42) (by decide) (by decide)
  · exact (claim_C3 _ SCHEDULE_ARRAY_FIELDS _ "contents" (by decide)).2.2.2.2
      (Value.vBool true) (by decide) (by decide) (by decide)

/-- C5: prepare_update_data only ever emits allow-listed fields that were
present in the request body (organization and device variants), and an
empty body yields an empty update set. -/
theorem claim_C5 :
    (∀ body k, hasKey (prepare_update_data_org body) k = true →
      k ∈ ORG_UPDATE_ALLOWED_FIELDS ∧ hasKey body k = true) ∧
    (∀ loads dec body upd k,
      prepare_update_data_device loads dec body = some upd →
      hasKey upd k = true →
      k ∈ DEVICE_UPDATE_ALLOWED_FIELDS ∧ hasKey body k = true) ∧
    prepare_update_data_org [] = [] ∧
    (∀ loads dec, prepare_update_data_device loads dec [] = some []) := by
  refine ⟨?_, ?_, rfl, fun loads dec => rfl⟩
  · intro body k hk
    have hm := (hasKey_iff_mem_dkeys _ k).mp hk
    rw [prepare_update_data_org, dkeys_filterAllowed] at hm
    exact ⟨(List.mem_filter.mp hm).1, (List.mem_filter.mp hm).2⟩
  · intro loads dec body upd k hupd hk
    exact prepare_device_keys_sub loads dec body upd k hupd hk

/-- Witness for C5 at concrete inputs. -/
theorem claim_C5_witness :
    ("name" ∈ ORG_UPDATE_ALLOWED_FIELDS ∧
      hasKey [("name", Value.vStr "A")] "name" = true) ∧
    ("name" ∈ DEVICE_UPDATE_ALLOWED_FIELDS ∧
      hasKey [("name", Value.vStr "A")] "name" = true) := by
  refine ⟨?_, ?_⟩
  · exact (claim_C5).1 [("name", Value.vStr "A")] "name" (by decide)
  · exact (claim_C5).2.1 (fun _ => none) (fun _ => none)
      [("name", Value.vStr "A")] [("name", Value.vStr "A")] "name" rfl (by decide)

/-- C10: a required field that is present but falsy (empty string, 0,
false, null, empty list) is rejected exactly as if it were absent: the
validator fails with a 400 error, its result is the same as on the body
with the field removed, and the creation handler returns the 400 without
touching the store. -/
theorem claim_C10 (fields : List (String × String)) (body : Dict)
    (nm col : String) (v : Value) (hmem : (nm, col) ∈ fields)
    (hv : dget body col = some v) (hfalsy : v.isTruthy = false)
    (hnd : (dkeys body).Nodup) :
    (∃ e, validate_required_fields fields body = some e ∧ e.statusCode = 400) ∧
    validate_required_fields fields body =
      validate_required_fields fields (dremove body col) ∧
    (∀ avail oid now table, ∃ msg,
      create_organization_handler fields avail oid now body table =
        (HResp.err 400 msg, table)) := by
  have hfo : isFalsyOpt (dget body col) = true := by
    rw [hv]
    simp [isFalsyOpt, hfalsy]
  rcases validate_isSome_of_falsy fields body nm col hmem hfo with ⟨e, he⟩
  have h400 := validate_statusCode_400 fields body e he
  refine ⟨⟨e, he, h400⟩, validate_eq_dremove fields body col hfo hnd, ?_⟩
  intro avail oid now table
  refine ⟨e.error, ?_⟩
  unfold create_organization_handler
  rw [he]
  simp [h400]

/-- Witness for C10: empty-string name on organization creation. -/
theorem claim_C10_witness :
    (∃ e, validate_required_fields [("Name", "name")]
        [("name", Value.vStr "")] = some e ∧ e.statusCode = 400) ∧
    validate_required_fields [("Name", "name")] [("name", Value.vStr "")] =
      validate_required_fields [("Name", "name")]
        (dremove [("name", Value.vStr "")] "name") ∧
    (∀ avail oid now table, ∃ msg,
      create_organization_handler [("Name", "name")] avail oid now
        [("name", Value.vStr "")] table = (HResp.err 400 msg, table)) := by
  exact claim_C10 [("Name", "name")] [("name", Value.vStr "")] "Name" "name"
    (Value.vStr "") (by decide) (by decide) rfl (by decide)

/-- C1 counterexample: an unavailable store (the boto3 put raising a
non-conditional exception) is surfaced by save_device_to_db as the 409
duplicate response, not as a 500-equivalent store failure, so failure
kinds are collapsed. -/
theorem claim_C1_counterexample :
    save_device_to_db false [("id", Value.vStr "d1")] [] =
      (some ⟨409, "Device with this ID already exists"⟩, []) ∧
    (409 : Nat) ≠ 500 := by
  exact ⟨rfl, by decide⟩

/-- C1 (amended): the failure mapping the save helpers actually
implement.  save_device_to_db maps every failure — the failed
attribute_not_exists(id) guard and an unavailable store alike — to the
one 409 response; save_organization_to_db maps the duplicate-license scan
to 409 but both the failed id guard and an unavailable store to 500.
Neither surfaces each failure kind distinctly per the spec taxonomy. -/
theorem claim_C1 :
    (∀ device_data table, save_device_to_db false device_data table =
      (some ⟨409, "Device with this ID already exists"⟩, table)) ∧
    (∀ device_data table r, r ∈ table → dget r "id" = dget device_data "id" →
      save_device_to_db true device_data table =
        (some ⟨409, "Device with this ID already exists"⟩, table)) ∧
    (∀ organization_data table lic r,
      dget organization_data "license" = some lic →
      r ∈ table → dget r "license" = some lic →
      save_organization_to_db true organization_data table =
        (some ⟨409, "Organization with this license already exists"⟩, table)) ∧
    (∀ organization_data table lic r,
      dget organization_data "license" = some lic →
      (∀ x ∈ table, dget x "license" ≠ some lic) →
      r ∈ table → dget r "id" = dget organization_data "id" →
      save_organization_to_db true organization_data table =
        (some ⟨500, "Internal server error"⟩, table)) ∧
    (∀ organization_data table,
      save_organization_to_db false organization_data table =
        (some ⟨500, "Internal server error"⟩, table)) := by
  refine ⟨fun d t => rfl, ?_, ?_, ?_, fun d t => rfl⟩
  · intro device_data table r hr hid
    unfold save_device_to_db
    rw [putItemIfAbsent_conflict table device_data r hr hid]
    simp
  · intro organization_data table lic r hlic hr hrlic
    have hmem : r ∈ scanEq table "license" lic := by
      simp only [scanEq, List.mem_filter, decide_eq_true_eq]
      exact ⟨hr, hrlic⟩
    have hscan := isEmpty_false_of_mem _ r hmem
    unfold save_organization_to_db
    rw [hlic]
    simp [hscan]
  · intro organization_data table lic r hlic hnone hr hid
    have hscan := scanEq_eq_nil table "license" lic hnone
    have hput := putItemIfAbsent_conflict table organization_data r hr hid
    unfold save_organization_to_db
    rw [hlic]
    simp [hscan, hput]

/-- Witness for C1 (amended) at concrete inputs. -/
theorem claim_C1_witness :
    save_device_to_db true [("id", Value.vStr "d1")] [[("id", Value.vStr "d1")]] =
      (some ⟨409, "Device with this ID already exists"⟩,
        [[("id", Value.vStr "d1")]]) ∧
    save_organization_to_db true
        [("id", Value.vStr "o2"), ("license", Value.vStr "L1")]
        [[("id", Value.vStr "o1"), ("license", Value.vStr "L1")]] =
      (some ⟨409, "Organization with this license already exists"⟩,
        [[("id", Value.vStr "o1"), ("license", Value.vStr "L1")]]) ∧
    save_organization_to_db true
        [("id", Value.vStr "o1"), ("license", Value.vStr "L2")]
        [[("id", Value.vStr "o1"), ("license", Value.vStr "L1")]] =
      (some ⟨500, "Internal server error"⟩,
        [[("id", Value.vStr "o1"), ("license", Value.vStr "L1")]]) := by
  refine ⟨?_, ?_, ?_⟩
  · exact (claim_C1).2.1 [("id", Value.vStr "d1")] [[("id", Value.vStr "d1")]]
      [("id", Value.vStr "d1")] (by decide) (by decide)
  · exact (claim_C1).2.2.1 [("id", Value.vStr "o2"), ("license", Value.vStr "L1")]
      [[("id", Value.vStr "o1"), ("license", Value.vStr "L1")]]
      (Value.vStr "L1") [("id", Value.vStr "o1"), ("license", Value.vStr "L1")]
      (by decide) (by decide) (by decide)
  · exact (claim_C1).2.2.2.1
      [("id", Value.vStr "o1"), ("license", Value.vStr "L2")]
      [[("id", Value.vStr "o1"), ("license", Value.vStr "L1")]]
      (Value.vStr "L2") [("id", Value.vStr "o1"), ("license", Value.vStr "L1")]
      (by decide) (by decide) (by decide) (by decide)

theorem bytesToHex_length (bs : List Nat) :
    (bytesToHex bs).length = 2 * bs.length := by
  induction bs with
  | nil => simp [bytesToHex]
  | cons b rest ih =>
      simp only [bytesToHex, List.length_cons, ih]
      omega

theorem sha256Bytes_length (msg : List Nat) : (sha256Bytes msg).length = 32 := by
  simp [sha256Bytes, wordBytes]

theorem hash_password_length (p : String) : (hash_password p).length = 64 := by
  unfold hash_password sha256hex
  rw [String.length, bytesToHex_length, sha256Bytes_length]

/-- C9: none of the user-facing response builders includes a password key
(creation, single retrieval, list retrieval, for well-formed records with
unique keys); the stored password of a created user is the sha256 hex
digest of the supplied password; and the digest always differs from any
supplied plaintext of a length other than the digest length 64. -/
theorem claim_C9 :
    (∀ user_data : Dict, (dkeys user_data).Nodup →
      hasKey (user_create_success_response user_data).2 "password" = false) ∧
    (∀ user : Dict, (dkeys user).Nodup →
      hasKey (create_user_response user).2 "password" = false) ∧
    (∀ users : List Dict, (∀ u ∈ users, (dkeys u).Nodup) →
      ∀ su ∈ (create_users_list_response users).2,
        hasKey su "password" = false) ∧
    (∀ uid now body p ud, dget body "password" = some (Value.vStr p) →
      create_user_data uid now body = some ud →
      dget ud "password" = some (Value.vStr (hash_password p))) ∧
    (∀ p : String, p.length ≠ 64 → hash_password p ≠ p) := by
  refine ⟨?_, ?_, ?_, ?_, ?_⟩
  · intro user_data hnd
    exact hasKey_dremove_self user_data "password" hnd
  · intro user hnd
    exact hasKey_dremove_self user "password" hnd
  · intro users hnd su hsu
    simp only [create_users_list_response, List.mem_map] at hsu
    rcases hsu with ⟨u, hu, hmap⟩
    rw [← hmap]
    exact hasKey_dremove_self u "password" (hnd u hu)
  · intro uid now body p ud hpw hud
    unfold create_user_data at hud
    split at hud
    · rename_i fn ln em role pw org h1 h2 h3 h4 h5 h6
      rw [hpw] at h5
      simp only [Option.some.injEq, Value.vStr.injEq] at h5
      subst h5
      simp only [Option.some.injEq] at hud
      rw [← hud]
      simp [dget]
    · simp at hud
  · intro p hlen heq
    exact hlen (by rw [← heq, hash_password_length])

/-- Witness for C9 at concrete inputs: a created user record carries the
digest, responses carry no password key, and a short password differs
from its digest. -/
theorem claim_C9_witness :
    hasKey (user_create_success_response
        [("id", Value.vStr "u1"), ("password", Value.vStr "h")]).2
      "password" = false ∧
    dget [("id", Value.vStr "u1"), ("first_name", Value.vStr "A"),
        ("last_name", Value.vStr "B"), ("email", Value.vStr ("e@x.com".toLower)),
        ("role", Value.vStr "admin"),
        ("password", Value.vStr (hash_password "Passw0rd")),
        ("organization_id", Value.vStr "o1"),
        ("created_at", Value.vStr "t1"), ("updated_at", Value.vStr "t1"),
        ("created_by", Value.vStr ""), ("updated_by", Value.vStr "")]
      "password" = some (Value.vStr (hash_password "Passw0rd")) ∧
    hash_password "abc" ≠ "abc" := by
  refine ⟨?_, ?_, ?_⟩
  · exact (claim_C9).1 [("id", Value.vStr "u1"), ("password", Value.vStr "h")]
      (by decide)
  · exact (claim_C9).2.2.2.1 "u1" "t1"
      [("first_name", Value.vStr "A"), ("last_name", Value.vStr "B"),
       ("email", Value.vStr "e@x.com"), ("role", Value.vStr "admin"),
       ("password", Value.vStr "Passw0rd"),
       ("organization_id", Value.vStr "o1")]
      "Passw0rd" _ (by decide) rfl
  · exact (claim_C9).2.2.2.2 "abc" (by decide)

theorem hasKey_filter_imp (upd : Dict) (p : String × Value → Bool) (k : String)
    (h : hasKey (upd.filter p) k = true) : hasKey upd k = true := by
  induction upd with
  | nil => simp at h
  | cons q rest ih =>
      obtain ⟨k0, v0⟩ := q
      rw [List.filter_cons] at h
      by_cases hp : p (k0, v0) = true
      · rw [if_pos hp] at h
        simp only [hasKey_cons, Bool.or_eq_true] at h ⊢
        rcases h with h | h
        · exact Or.inl h
        · exact Or.inr (ih h)
      · rw [if_neg (by simpa using hp)] at h
        simp only [hasKey_cons, Bool.or_eq_true]
        exact Or.inr (ih h)

theorem prepare_device_no_id (loads : String → Option Value)
    (dec : Value → Option Value) (body : Dict) (upd : Dict)
    (h : prepare_update_data_device loads dec body = some upd) :
    hasKey upd "id" = false ∧ hasKey upd "last_updated" = false := by
  constructor
  · cases hx : hasKey upd "id"
    · rfl
    · exact absurd (prepare_device_keys_sub loads dec body upd "id" h hx).1
        (by decide)
  · cases hx : hasKey upd "last_updated"
    · rfl
    · exact absurd
        (prepare_device_keys_sub loads dec body upd "last_updated" h hx).1
        (by decide)

theorem prepare_content_keys_sub (loads : String → Option Value) (body : Dict)
    (k : String) (hk : hasKey (prepare_update_data_content loads body) k = true) :
    k ∈ CONTENT_UPDATE_ALLOWED_FIELDS ∧ hasKey body k = true := by
  have hm := (hasKey_iff_mem_dkeys _ k).mp hk
  rw [prepare_update_data_content, dkeys_prepContentFields] at hm
  exact ⟨(List.mem_filter.mp hm).1, (List.mem_filter.mp hm).2⟩

/-- C6: updating a nonexistent record id with a non-empty prepared update
set returns the 404 not-found response and leaves the table unchanged
(device and content variants). -/
theorem claim_C6 :
    (∀ loads dec body upd now did table,
      prepare_update_data_device loads dec body = some upd → upd ≠ [] →
      existsId table did = false →
      update_device_in_db true now did upd table =
        (some ⟨404, "Device not found"⟩, table)) ∧
    (∀ loads body upd now cid table,
      prepare_update_data_content loads body = upd → upd ≠ [] →
      existsId table cid = false →
      update_content_in_db true now cid upd table =
        (some ⟨404, "Content not found"⟩, table)) := by
  constructor
  · intro loads dec body upd now did table hupd hne hex
    rcases prepare_device_no_id loads dec body upd hupd with ⟨hid, hlu⟩
    have hfil := filter_ne_id_of_no_id upd hid
    have hemp : upd.isEmpty = false := by
      cases upd with
      | nil => exact absurd rfl hne
      | cons a l => rfl
    unfold update_device_in_db
    simp only [if_true, hfil, hemp, hlu, Bool.false_eq_true, if_false,
      updateItemIfExists_absent table did _ hex]
  · intro loads body upd now cid table hupd hne hex
    have hua : hasKey upd "updated_at" = false := by
      cases hx : hasKey upd "updated_at"
      · rfl
      · exact absurd (prepare_content_keys_sub loads body "updated_at"
          (hupd ▸ hx)).1 (by decide)
    have hid : hasKey upd "id" = false := by
      cases hx : hasKey upd "id"
      · rfl
      · exact absurd (prepare_content_keys_sub loads body "id"
          (hupd ▸ hx)).1 (by decide)
    have hemp : upd.isEmpty = false := by
      cases upd with
      | nil => exact absurd rfl hne
      | cons a l => rfl
    unfold update_content_in_db
    rw [if_pos rfl]
    rw [hemp, hua, hid, updateItemIfExists_absent table cid _ hex]
    simp

/-- Witness for C6 at concrete inputs (empty table, so no id exists). -/
theorem claim_C6_witness :
    update_device_in_db true "t2" "d1" [("name", Value.vStr "X")] [] =
      (some ⟨404, "Device not found"⟩, []) ∧
    update_content_in_db true "t2" "c1" [("title", Value.vStr "T")] [] =
      (some ⟨404, "Content not found"⟩, []) := by
  constructor
  · exact (claim_C6).1 (fun _ => none) (fun _ => none)
      [("name", Value.vStr "X")] [("name", Value.vStr "X")] "t2" "d1" []
      rfl (by decide) rfl
  · exact (claim_C6).2 (fun _ => none)
      [("title", Value.vStr "T")] [("title", Value.vStr "T")] "t2" "c1" []
      rfl (by decide) rfl

/-- C7: under non-concurrent access with an available store, the first
create with a fresh unique value succeeds, a second create with the same
value fails with the 409 duplicate response leaving the first record in
place, and a third create with a different fresh value succeeds (user
email and organization license variants). -/
theorem claim_C7 :
    (∀ table u1 u2 u3 e1 e3,
      dget u1 "email" = some e1 → dget u2 "email" = some e1 →
      dget u3 "email" = some e3 → e3 ≠ e1 →
      (∀ r ∈ table, dget r "email" ≠ some e1) →
      (∀ r ∈ table, dget r "email" ≠ some e3) →
      (∀ r ∈ table, dget r "id" ≠ dget u1 "id") →
      (∀ r ∈ table, dget r "id" ≠ dget u3 "id") →
      dget u1 "id" ≠ dget u3 "id" →
      save_user_to_db true u1 table = (none, table ++ [u1]) ∧
      save_user_to_db true u2 (table ++ [u1]) =
        (some ⟨409, "User with this email already exists"⟩, table ++ [u1]) ∧
      save_user_to_db true u3 (table ++ [u1]) =
        (none, (table ++ [u1]) ++ [u3])) ∧
    (∀ table o1 o2 o3 l1 l3,
      dget o1 "license" = some l1 → dget o2 "license" = some l1 →
      dget o3 "license" = some l3 → l3 ≠ l1 →
      (∀ r ∈ table, dget r "license" ≠ some l1) →
      (∀ r ∈ table, dget r "license" ≠ some l3) →
      (∀ r ∈ table, dget r "id" ≠ dget o1 "id") →
      (∀ r ∈ table, dget r "id" ≠ dget o3 "id") →
      dget o1 "id" ≠ dget o3 "id" →
      save_organization_to_db true o1 table = (none, table ++ [o1]) ∧
      save_organization_to_db true o2 (table ++ [o1]) =
        (some ⟨409, "Organization with this license already exists"⟩,
          table ++ [o1]) ∧
      save_organization_to_db true o3 (table ++ [o1]) =
        (none, (table ++ [o1]) ++ [o3])) := by
  constructor
  · intro table u1 u2 u3 e1 e3 he1 he2 he3 hne hno1 hno3 hid1 hid3 hid13
    refine ⟨?_, ?_, ?_⟩
    · have hscan := scanEq_eq_nil table "email" e1 hno1
      have hput := putItemIfAbsent_fresh table u1 hid1
      unfold save_user_to_db
      rw [he1]
      simp [hscan, hput]
    · have hmem : u1 ∈ scanEq (table ++ [u1]) "email" e1 := by
        simp only [scanEq, List.mem_filter, decide_eq_true_eq]
        exact ⟨by simp, he1⟩
      have hscan := isEmpty_false_of_mem _ u1 hmem
      unfold save_user_to_db
      rw [he2]
      simp [hscan]
    · have hscan : scanEq (table ++ [u1]) "email" e3 = [] := by
        apply scanEq_eq_nil
        intro r hr
        rcases List.mem_append.mp hr with h | h
        · exact hno3 r h
        · rcases List.mem_singleton.mp h with rfl
          rw [he1]
          intro hc
          exact hne (Option.some.inj hc).symm
      have hput : putItemIfAbsent (table ++ [u1]) u3 =
          some ((table ++ [u1]) ++ [u3]) := by
        apply putItemIfAbsent_fresh
        intro r hr
        rcases List.mem_append.mp hr with h | h
        · exact hid3 r h
        · rcases List.mem_singleton.mp h with rfl
          exact hid13
      unfold save_user_to_db
      rw [he3]
      simp [hscan, hput]
  · intro table o1 o2 o3 l1 l3 hl1 hl2 hl3 hne hno1 hno3 hid1 hid3 hid13
    refine ⟨?_, ?_, ?_⟩
    · have hscan := scanEq_eq_nil table "license" l1 hno1
      have hput := putItemIfAbsent_fresh table o1 hid1
      unfold save_organization_to_db
      rw [hl1]
      simp [hscan, hput]
    · have hmem : o1 ∈ scanEq (table ++ [o1]) "license" l1 := by
        simp only [scanEq, List.mem_filter, decide_eq_true_eq]
        exact ⟨by simp, hl1⟩
      have hscan := isEmpty_false_of_mem _ o1 hmem
      unfold save_organization_to_db
      rw [hl2]
      simp [hscan]
    · have hscan : scanEq (table ++ [o1]) "license" l3 = [] := by
        apply scanEq_eq_nil
        intro r hr
        rcases List.mem_append.mp hr with h | h
        · exact hno3 r h
        · rcases List.mem_singleton.mp h with rfl
          rw [hl1]
          intro hc
          exact hne (Option.some.inj hc).symm
      have hput : putItemIfAbsent (table ++ [o1]) o3 =
          some ((table ++ [o1]) ++ [o3]) := by
        apply putItemIfAbsent_fresh
        intro r hr
        rcases List.mem_append.mp hr with h | h
        · exact hid3 r h
        · rcases List.mem_singleton.mp h with rfl
          exact hid13
      unfold save_organization_to_db
      rw [hl3]
      simp [hscan, hput]

/-- Witness for C7 on an initially empty table with concrete user and
organization records. -/
theorem claim_C7_witness :
    (save_user_to_db true
        [("id", Value.vStr "u1"), ("email", Value.vStr "a@b.com")] [] =
      (none, [[("id", Value.vStr "u1"), ("email", Value.vStr "a@b.com")]]) ∧
    save_user_to_db true
        [("id", Value.vStr "u2"), ("email", Value.vStr "a@b.com")]
        [[("id", Value.vStr "u1"), ("email", Value.vStr "a@b.com")]] =
      (some ⟨409, "User with this email already exists"⟩,
        [[("id", Value.vStr "u1"), ("email", Value.vStr "a@b.com")]]) ∧
    save_user_to_db true
        [("id", Value.vStr "u3"), ("email", Value.vStr "c@d.com")]
        [[("id", Value.vStr "u1"), ("email", Value.vStr "a@b.com")]] =
      (none, [[("id", Value.vStr "u1"), ("email", Value.vStr "a@b.com")],
              [("id", Value.vStr "u3"), ("email", Value.vStr "c@d.com")]])) ∧
    (save_organization_to_db true
        [("id", Value.vStr "o1"), ("license", Value.vStr "LIC-1")] [] =
      (none, [[("id", Value.vStr "o1"), ("license", Value.vStr "LIC-1")]]) ∧
    save_organization_to_db true
        [("id", Value.vStr "o2"), ("license", Value.vStr "LIC-1")]
        [[("id", Value.vStr "o1"), ("license", Value.vStr "LIC-1")]] =
      (some ⟨409, "Organization with this license already exists"⟩,
        [[("id", Value.vStr "o1"), ("license", Value.vStr "LIC-1")]]) ∧
    save_organization_to_db true
        [("id", Value.vStr "o3"), ("license", Value.vStr "LIC-2")]
        [[("id", Value.vStr "o1"), ("license", Value.vStr "LIC-1")]] =
      (none, [[("id", Value.vStr "o1"), ("license", Value.vStr "LIC-1")],
              [("id", Value.vStr "o3"), ("license", Value.vStr "LIC-2")]])) := by
  constructor
  · exact (claim_C7).1 []
      [("id", Value.vStr "u1"), ("email", Value.vStr "a@b.com")]
      [("id", Value.vStr "u2"), ("email", Value.vStr "a@b.com")]
      [("id", Value.vStr "u3"), ("email", Value.vStr "c@d.com")]
      (Value.vStr "a@b.com") (Value.vStr "c@d.com")
      (by decide) (by decide) (by decide) (by decide)
      (by decide) (by decide) (by decide) (by decide) (by decide)
  · exact (claim_C7).2 []
      [("id", Value.vStr "o1"), ("license", Value.vStr "LIC-1")]
      [("id", Value.vStr "o2"), ("license", Value.vStr "LIC-1")]
      [("id", Value.vStr "o3"), ("license", Value.vStr "LIC-2")]
      (Value.vStr "LIC-1") (Value.vStr "LIC-2")
      (by decide) (by decide) (by decide) (by decide)
      (by decide) (by decide) (by decide) (by decide) (by decide)

theorem map_congr_mem {α β : Type} (l : List α) (f g : α → β)
    (h : ∀ a ∈ l, f a = g a) : l.map f = l.map g := by
  induction l with
  | nil => rfl
  | cons a rest ih =>
      simp only [List.map_cons]
      rw [h a (List.mem_cons_self a rest),
        ih (fun x hx => h x (List.mem_cons_of_mem a hx))]

theorem nodup_append_single (upd : Dict) (k : String) (v : Value)
    (hnd : (dkeys upd).Nodup) (hk : hasKey upd k = false) :
    (dkeys (upd ++ [(k, v)])).Nodup := by
  rw [dkeys_append, List.nodup_append]
  refine ⟨hnd, by simp, ?_⟩
  intro a ha hb
  simp only [dkeys_cons, dkeys_nil, List.mem_singleton] at hb
  subst hb
  exact absurd ((hasKey_iff_mem_dkeys upd a).mpr ha) (by simp [hk])

theorem prepare_org_keys_nodup (body : Dict) :
    (dkeys (prepare_update_data_org body)).Nodup := by
  rw [prepare_update_data_org, dkeys_filterAllowed]
  exact List.Nodup.filter _ (by decide : ORG_UPDATE_ALLOWED_FIELDS.Nodup)

theorem updated_record_props (r : Dict) (upd : Dict) (tk now : String)
    (hnd : (dkeys upd).Nodup) (htk : hasKey upd tk = false) :
    (∀ k, hasKey upd k = true →
      dget (applyUpdates r (upd ++ [(tk, Value.vStr now)])) k = dget upd k) ∧
    dget (applyUpdates r (upd ++ [(tk, Value.vStr now)])) tk =
      some (Value.vStr now) ∧
    (∀ k, hasKey upd k = false → k ≠ tk →
      dget (applyUpdates r (upd ++ [(tk, Value.vStr now)])) k = dget r k) := by
  have hnd2 := nodup_append_single upd tk (Value.vStr now) hnd htk
  refine ⟨?_, ?_, ?_⟩
  · intro k hk
    have hk2 : hasKey (upd ++ [(tk, Value.vStr now)]) k = true := by
      rw [hasKey_append, hk]
      rfl
    rw [dget_applyUpdates_mem _ r k hnd2 hk2, dget_append_left upd _ k hk]
  · have hk2 : hasKey (upd ++ [(tk, Value.vStr now)]) tk = true := by
      rw [hasKey_append, htk]
      simp
    rw [dget_applyUpdates_mem _ r tk hnd2 hk2, dget_append_right upd _ tk htk]
    simp
  · intro k hk hne
    have hk2 : hasKey (upd ++ [(tk, Value.vStr now)]) k = false := by
      rw [hasKey_append, hk]
      simp only [hasKey_cons, hasKey_nil, Bool.or_false, Bool.false_or,
        decide_eq_false_iff_not]
      exact fun h => hne h.symm
    rw [dget_applyUpdates_not_mem _ r k hk2]

theorem map_update_eq (table : List Dict) (r : Dict) (oid : String) (u : Dict)
    (hr : dget r "id" = some (Value.vStr oid))
    (huniq : ∀ x ∈ table, dget x "id" = some (Value.vStr oid) → x = r) :
    table.map (fun x => if dget x "id" = some (Value.vStr oid)
        then applyUpdates x u else x) =
      table.map (fun x => if x = r then applyUpdates r u else x) := by
  apply map_congr_mem
  intro x hx
  by_cases hxid : dget x "id" = some (Value.vStr oid)
  · rcases huniq x hx hxid with rfl
    rw [if_pos hxid, if_pos rfl]
  · rw [if_neg hxid, if_neg (fun he => hxid (by rw [he]; exact hr))]

/-- C2: a successful partial update through the prepare/apply pipeline
mutates exactly the targeted record: every field of the non-empty update
set takes its new value, the timestamp field (updated_at for
organizations, last_updated for devices) is advanced to the strictly
later current time, every other field of the record and every other
record are unchanged. -/
theorem claim_C2 :
    (∀ body upd avail now oid table t2 r t0,
      prepare_update_data_org body = upd → upd ≠ [] →
      update_organization_in_db avail now oid upd table = (none, t2) →
      r ∈ table → dget r "id" = some (Value.vStr oid) →
      (∀ x ∈ table, dget x "id" = some (Value.vStr oid) → x = r) →
      dget r "updated_at" = some (Value.vStr t0) → t0 < now →
      ∃ r2,
        t2 = table.map (fun x => if x = r then r2 else x) ∧
        (∀ k, hasKey upd k = true → dget r2 k = dget upd k) ∧
        dget r2 "updated_at" = some (Value.vStr now) ∧ t0 < now ∧
        (∀ k, hasKey upd k = false → k ≠ "updated_at" →
          dget r2 k = dget r k)) ∧
    (∀ loads dec body upd avail now did table t2 r t0,
      prepare_update_data_device loads dec body = some upd → upd ≠ [] →
      update_device_in_db avail now did upd table = (none, t2) →
      r ∈ table → dget r "id" = some (Value.vStr did) →
      (∀ x ∈ table, dget x "id" = some (Value.vStr did) → x = r) →
      dget r "last_updated" = some (Value.vStr t0) → t0 < now →
      ∃ r2,
        t2 = table.map (fun x => if x = r then r2 else x) ∧
        (∀ k, hasKey upd k = true → dget r2 k = dget upd k) ∧
        dget r2 "last_updated" = some (Value.vStr now) ∧ t0 < now ∧
        (∀ k, hasKey upd k = false → k ≠ "last_updated" →
          dget r2 k = dget r k)) := by
  constructor
  · intro body upd avail now oid table t2 r t0 hprep hne hsucc hr hrid huniq
      ht0 hlt
    rcases update_org_cases avail now oid upd table with hc | ⟨e, hc⟩
    · rw [hc] at hsucc
      rcases org_update_write_success now oid upd table t2 hsucc with
        ⟨hua, hid, hex, ht2⟩
      have hnd : (dkeys upd).Nodup := by
        rw [← hprep]
        exact prepare_org_keys_nodup body
      rcases updated_record_props r upd "updated_at" now hnd hua with
        ⟨hp1, hp2, hp3⟩
      refine ⟨applyUpdates r (upd ++ [("updated_at", Value.vStr now)]),
        ?_, hp1, hp2, hlt, hp3⟩
      rw [ht2, map_update_eq table r oid _ hrid huniq]
    · rw [hc] at hsucc
      simp [Prod.ext_iff] at hsucc
  · intro loads dec body upd avail now did table t2 r t0 hprep hne hsucc hr
      hrid huniq ht0 hlt
    rcases prepare_device_no_id loads dec body upd hprep with ⟨hid, hlu⟩
    have hfil := filter_ne_id_of_no_id upd hid
    rcases update_device_success avail now did upd table t2 hsucc with
      ⟨hex, ht2⟩
    rw [hfil] at ht2
    have hnd := prepare_device_keys_nodup loads dec body upd hprep
    rcases updated_record_props r upd "last_updated" now hnd hlu with
      ⟨hp1, hp2, hp3⟩
    refine ⟨applyUpdates r (upd ++ [("last_updated", Value.vStr now)]),
      ?_, hp1, hp2, hlt, hp3⟩
    rw [ht2, map_update_eq table r did _ hrid huniq]

/-- Witness for C2: one organization record and one device record updated
at a concrete later timestamp. -/
theorem claim_C2_witness :
    (∃ r2,
      ([[("id", Value.vStr "o1"), ("name", Value.vStr "New"),
         ("updated_at", Value.vStr "2024-01-02")]] : List Dict) =
        ([[("id", Value.vStr "o1"), ("name", Value.vStr "Old"),
           ("updated_at", Value.vStr "2024-01-01")]] : List Dict).map
          (fun x => if x = [("id", Value.vStr "o1"),
              ("name", Value.vStr "Old"),
              ("updated_at", Value.vStr "2024-01-01")] then r2 else x) ∧
      (∀ k, hasKey [("name", Value.vStr "New")] k = true →
        dget r2 k = dget [("name", Value.vStr "New")] k) ∧
      dget r2 "updated_at" = some (Value.vStr "2024-01-02") ∧
      ("2024-01-01" : String) < "2024-01-02" ∧
      (∀ k, hasKey [("name", Value.vStr "New")] k = false →
        k ≠ "updated_at" →
        dget r2 k = dget [("id", Value.vStr "o1"),
          ("name", Value.vStr "Old"),
          ("updated_at", Value.vStr "2024-01-01")] k)) ∧
    (∃ r2,
      ([[("id", Value.vStr "d1"), ("name", Value.vStr "Cam2"),
         ("last_updated", Value.vStr "2024-01-02")]] : List Dict) =
        ([[("id", Value.vStr "d1"), ("name", Value.vStr "Cam1"),
           ("last_updated", Value.vStr "2024-01-01")]] : List Dict).map
          (fun x => if x = [("id", Value.vStr "d1"),
              ("name", Value.vStr "Cam1"),
              ("last_updated", Value.vStr "2024-01-01")] then r2 else x) ∧
      (∀ k, hasKey [("name", Value.vStr "Cam2")] k = true →
        dget r2 k = dget [("name", Value.vStr "Cam2")] k) ∧
      dget r2 "last_updated" = some (Value.vStr "2024-01-02") ∧
      ("2024-01-01" : String) < "2024-01-02" ∧
      (∀ k, hasKey [("name", Value.vStr "Cam2")] k = false →
        k ≠ "last_updated" →
        dget r2 k = dget [("id", Value.vStr "d1"),
          ("name", Value.vStr "Cam1"),
          ("last_updated", Value.vStr "2024-01-01")] k)) := by
  constructor
  · exact (claim_C2).1 [("name", Value.vStr "New")] [("name", Value.vStr "New")]
      true "2024-01-02" "o1"
      [[("id", Value.vStr "o1"), ("name", Value.vStr "Old"),
        ("updated_at", Value.vStr "2024-01-01")]]
      [[("id", Value.vStr "o1"), ("name", Value.vStr "New"),
        ("updated_at", Value.vStr "2024-01-02")]]
      [("id", Value.vStr "o1"), ("name", Value.vStr "Old"),
       ("updated_at", Value.vStr "2024-01-01")]
      "2024-01-01" rfl (by decide) (by decide) (by decide) (by decide)
      (by decide) (by decide) (by rw [String.lt_iff_toList_lt]; decide)
  · exact (claim_C2).2 (fun _ => none) (fun _ => none)
      [("name", Value.vStr "Cam2")] [("name", Value.vStr "Cam2")]
      true "2024-01-02" "d1"
      [[("id", Value.vStr "d1"), ("name", Value.vStr "Cam1"),
        ("last_updated", Value.vStr "2024-01-01")]]
      [[("id", Value.vStr "d1"), ("name", Value.vStr "Cam2"),
        ("last_updated", Value.vStr "2024-01-02")]]
      [("id", Value.vStr "d1"), ("name", Value.vStr "Cam1"),
       ("last_updated", Value.vStr "2024-01-01")]
      "2024-01-01" rfl (by decide) (by decide) (by decide) (by decide)
      (by decide) (by decide) (by rw [String.lt_iff_toList_lt]; decide)

theorem protected_not_org_allowed (k : String)
    (hk : k ∈ (["id", "created_at", "created_by"] : List String)) :
    k ∉ ORG_UPDATE_ALLOWED_FIELDS := by
  intro hmem
  simp only [List.mem_cons, List.mem_nil_iff, or_false] at hk
  rcases hk with rfl | rfl | rfl <;> revert hmem <;> decide

theorem protected_not_user_allowed (k : String)
    (hk : k ∈ (["id", "created_at", "created_by"] : List String)) :
    k ∉ USER_UPDATE_ALLOWED_FIELDS := by
  intro hmem
  simp only [List.mem_cons, List.mem_nil_iff, or_false] at hk
  rcases hk with rfl | rfl | rfl <;> revert hmem <;> decide

theorem protected_not_device_allowed (k : String)
    (hk : k ∈ (["id", "created_at", "created_by"] : List String)) :
    k ∉ DEVICE_UPDATE_ALLOWED_FIELDS := by
  intro hmem
  simp only [List.mem_cons, List.mem_nil_iff, or_false] at hk
  rcases hk with rfl | rfl | rfl <;> revert hmem <;> decide

theorem protected_ne_timestamp (k : String)
    (hk : k ∈ (["id", "created_at", "created_by"] : List String)) :
    ("updated_at" : String) ≠ k ∧ ("last_updated" : String) ≠ k := by
  simp only [List.mem_cons, List.mem_nil_iff, or_false] at hk
  rcases hk with rfl | rfl | rfl <;> exact ⟨by decide, by decide⟩

/-- C8: the partial-update pipeline (prepare_update_data followed by the
per-resource update-in-db helper) never changes the id, created_at or
created_by field of any stored record, whatever the request body holds
(organization, user and device variants; whatever the outcome of the
update call). -/
theorem claim_C8 :
    (∀ body avail now oid table k,
      k ∈ (["id", "created_at", "created_by"] : List String) →
      framePreserved table
        (update_organization_in_db avail now oid
          (prepare_update_data_org body) table).snd k) ∧
    (∀ body upd avail now uid table k,
      prepare_update_data_user body = some upd →
      k ∈ (["id", "created_at", "created_by"] : List String) →
      framePreserved table (update_user_in_db avail now uid upd table).snd k) ∧
    (∀ loads dec body upd avail now did table k,
      prepare_update_data_device loads dec body = some upd →
      k ∈ (["id", "created_at", "created_by"] : List String) →
      framePreserved table
        (update_device_in_db avail now did upd table).snd k) := by
  refine ⟨?_, ?_, ?_⟩
  · intro body avail now oid table k hk
    have hkey : hasKey (prepare_update_data_org body) k = false := by
      cases hx : hasKey (prepare_update_data_org body) k
      · rfl
      · have hm := (hasKey_iff_mem_dkeys _ k).mp hx
        rw [prepare_update_data_org, dkeys_filterAllowed] at hm
        exact absurd (List.mem_filter.mp hm).1 (protected_not_org_allowed k hk)
    rcases update_org_cases avail now oid (prepare_update_data_org body) table
      with hc | ⟨e, hc⟩
    · rw [hc]
      rcases org_update_write_snd now oid (prepare_update_data_org body) table
        with hs | ⟨hs, hua, hid⟩
      · rw [hs]
        exact framePreserved_refl table k
      · rw [hs]
        apply framePreserved_map
        intro x
        by_cases hx : dget x "id" = some (Value.vStr oid)
        · rw [if_pos hx]
          apply dget_applyUpdates_not_mem
          rw [hasKey_append, hkey]
          simp only [hasKey_cons, hasKey_nil, Bool.or_false, Bool.false_or,
            decide_eq_false_iff_not]
          exact (protected_ne_timestamp k hk).1
        · rw [if_neg hx]
    · rw [hc]
      exact framePreserved_refl table k
  · intro body upd avail now uid table k hupd hk
    have hkey : hasKey upd k = false := by
      cases hx : hasKey upd k
      · rfl
      · have hm := (hasKey_iff_mem_dkeys _ k).mp hx
        rw [dkeys_prepUserFields USER_UPDATE_ALLOWED_FIELDS body upd hupd] at hm
        exact absurd (List.mem_filter.mp hm).1 (protected_not_user_allowed k hk)
    have hkeyLower : hasKey (lowerEmailField upd) k = false := by
      rw [hasKey_congr_dkeys (lowerEmailField upd) upd
        (dkeys_lowerEmailField upd) k]
      exact hkey
    rcases update_user_cases avail now uid upd table with hc | ⟨e, hc⟩
    · rw [hc]
      rcases user_update_write_snd now uid upd table with hs | ⟨hs, hua, hid⟩
      · rw [hs]
        exact framePreserved_refl table k
      · rw [hs]
        apply framePreserved_map
        intro x
        by_cases hx : dget x "id" = some (Value.vStr uid)
        · rw [if_pos hx]
          apply dget_applyUpdates_not_mem
          rw [hasKey_append, hkeyLower]
          simp only [hasKey_cons, hasKey_nil, Bool.or_false, Bool.false_or,
            decide_eq_false_iff_not]
          exact (protected_ne_timestamp k hk).1
        · rw [if_neg hx]
    · rw [hc]
      exact framePreserved_refl table k
  · intro loads dec body upd avail now did table k hupd hk
    have hkey : hasKey (upd.filter (fun kv => kv.1 != "id")) k = false := by
      cases hx : hasKey (upd.filter (fun kv => kv.1 != "id")) k
      · rfl
      · exact absurd
          (prepare_device_keys_sub loads dec body upd k hupd
            (hasKey_filter_imp upd _ k hx)).1
          (protected_not_device_allowed k hk)
    rcases update_device_snd avail now did upd table with hs | ⟨hs, hlu⟩
    · rw [hs]
      exact framePreserved_refl table k
    · rw [hs]
      apply framePreserved_map
      intro x
      by_cases hx : dget x "id" = some (Value.vStr did)
      · rw [if_pos hx]
        apply dget_applyUpdates_not_mem
        rw [hasKey_append, hkey]
        simp only [hasKey_cons, hasKey_nil, Bool.or_false, Bool.false_or,
          decide_eq_false_iff_not]
        exact (protected_ne_timestamp k hk).2
      · rw [if_neg hx]

/-- Witness for C8 at concrete inputs: updating name on a one-record
table preserves id, created_at and created_by. -/
theorem claim_C8_witness :
    framePreserved [[("id", Value.vStr "o1")]]
      (update_organization_in_db true "t2" "o1"
        (prepare_update_data_org [("name", Value.vStr "N")])
        [[("id", Value.vStr "o1")]]).snd "created_at" ∧
    framePreserved [[("id", Value.vStr "u1")]]
      (update_user_in_db true "t2" "u1" [("role", Value.vStr "admin")]
        [[("id", Value.vStr "u1")]]).snd "created_by" ∧
    framePreserved [[("id", Value.vStr "d1")]]
      (update_device_in_db true "t2" "d1" [("name", Value.vStr "N")]
        [[("id", Value.vStr "d1")]]).snd "id" := by
  refine ⟨?_, ?_, ?_⟩
  · exact (claim_C8).1 [("name", Value.vStr "N")] true "t2" "o1"
      [[("id", Value.vStr "o1")]] "created_at" (by decide)
  · exact (claim_C8).2.1 [("role", Value.vStr "admin")]
      [("role", Value.vStr "admin")] true "t2" "u1"
      [[("id", Value.vStr "u1")]] "created_by" rfl (by decide)
  · exact (claim_C8).2.2 (fun _ => none) (fun _ => none)
      [("name", Value.vStr "N")] [("name", Value.vStr "N")] true "t2" "d1"
      [[("id", Value.vStr "d1")]] "id" rfl (by decide)

end CMS
